/-
Verification of the cornhole tournament engine.

This file shallowly embeds the two tournament engines of the repository:
  * `src/lib/bracketLogic.ts`   — bracket builder and match-progression engine
  * `src/lib/tournamentLogic.ts` — simplified loss-tracking facade
and proves (or refutes) the frozen claims about them.

Conventions of the embedding:
  * TypeScript `number` ids and match numbers become `Nat`; the signed
    `round` field becomes `Int` (positive = winners bracket, negative =
    losers bracket, 0 = grand final), exactly as in `types.ts`.
  * `number | null` becomes `Option Nat`.
  * In-place array mutation (`matches.find(...); m.team1_id = x`) becomes
    `updateFirst`, which rebuilds the list with the first matching element
    replaced — the TS `Array.prototype.find` returns the first match and the
    code mutates only that element.
  * Functions that only read their inputs and push onto a local `updates`
    array are translated as pure functions returning the list of mutations.
-/
import Mathlib

/-- A match row as stored (`EventMatchRow` in `types.ts`). -/
structure EventMatchRow where
  id : Nat
  event_id : Nat
  round : Int
  match_number : Nat
  team1_id : Option Nat
  team2_id : Option Nat
  winner_id : Option Nat
  loser_id : Option Nat
  is_bye : Bool
deriving DecidableEq, Repr

/-- A match row to insert, i.e. `Omit<EventMatchRow, 'id' | 'created_at'>`. -/
structure InsertMatch where
  event_id : Nat
  round : Int
  match_number : Nat
  team1_id : Option Nat
  team2_id : Option Nat
  winner_id : Option Nat
  loser_id : Option Nat
  is_bye : Bool
deriving DecidableEq, Repr

/-- A team row (`EventTeamRow` / `TeamWithPlayers` in `types.ts`; the joined
player objects are never consulted by the bracket logic). -/
structure TeamWithPlayers where
  id : Nat
  event_id : Nat
  player1_id : Nat
  player2_id : Nat
  is_reigning_champion : Bool
deriving DecidableEq, Repr

/-- The fields a `Partial<EventMatchRow>` update may carry (besides `id`).
`some v` means the field is present in the partial object with value `v`;
`none` means the field is absent. -/
structure PartialMatch where
  team1_id : Option (Option Nat)
  team2_id : Option (Option Nat)
  winner_id : Option (Option Nat)
  loser_id : Option (Option Nat)
  is_bye : Option Bool
deriving DecidableEq, Repr

/-- A partial update carrying no fields. -/
def pmEmpty : PartialMatch := ⟨none, none, none, none, none⟩

/-- `{ team1_id: v }` -/
def pmTeam1 (v : Option Nat) : PartialMatch := { pmEmpty with team1_id := some v }

/-- `{ team2_id: v }` -/
def pmTeam2 (v : Option Nat) : PartialMatch := { pmEmpty with team2_id := some v }

/-- `{ loser_id: v }` -/
def pmLoser (v : Option Nat) : PartialMatch := { pmEmpty with loser_id := some v }

/-- `{ is_bye: true, winner_id: w }` -/
def pmResolve (w : Nat) : PartialMatch :=
  { pmEmpty with winner_id := some (some w), is_bye := some true }

/-- One element of the `Partial<EventMatchRow>[]` result: either a partial
update addressed by match id, or an insert row built by `buildInsertMatch`
(recognizable in TS by the absence of an `id` field). -/
inductive Mutation where
  | update (id : Nat) (fields : PartialMatch)
  | insert (row : InsertMatch)
deriving DecidableEq, Repr

/-- Replace the first element satisfying `p` by its `f`-image: the purely
functional rendering of `const x = l.find(p); if (x) mutate(x)`. -/
def updateFirst (p : α → Bool) (f : α → α) : List α → List α
  | [] => []
  | x :: xs => if p x then f x :: xs else x :: updateFirst p f xs

/-! ## Bracket builder (`generateInitialBracket` and helpers) -/

/-- The winners Round-1 loop of `generateInitialBracket`: each iteration pairs
the next two teams into a real match, or makes a single-team bye when exactly
one team is left (the loop runs `ceil(n/2)` times and consumes the whole team
list, two teams per iteration). `i` is the running `match_number`. -/
def round1Matches (eventId : Nat) : List TeamWithPlayers → Nat → List InsertMatch
  | [], _ => []
  | [t1], i =>
    [{ event_id := eventId, round := 1, match_number := i, team1_id := some t1.id,
       team2_id := none, winner_id := some t1.id, loser_id := none, is_bye := true }]
  | t1 :: t2 :: rest, i =>
    { event_id := eventId, round := 1, match_number := i, team1_id := some t1.id,
      team2_id := some t2.id, winner_id := none, loser_id := none, is_bye := false }
      :: round1Matches eventId rest (i + 1)

/-- One empty scaffold row. -/
def scaffoldRow (eventId : Nat) (round : Int) (i : Nat) : InsertMatch :=
  { event_id := eventId, round := round, match_number := i, team1_id := none,
    team2_id := none, winner_id := none, loser_id := none, is_bye := false }

/-- Structural worker for the winners R2+ scaffolding loop. The `fuel`
argument only forces termination; `remaining` at least halves every
iteration, so `fuel = remaining` never runs out (`scaffoldGo_congr`). -/
def scaffoldGo (eventId : Nat) : Nat → Int → Nat → List InsertMatch
  | 0, _, _ => []
  | fuel + 1, round, remaining =>
    if 1 < remaining then
      let numMatches := (remaining + 1) / 2
      ((List.range numMatches).map (scaffoldRow eventId round))
        ++ scaffoldGo eventId fuel (round + 1) numMatches
    else []

/-- The winners R2+ scaffolding loop: `for (round = 2; remaining > 1; round++)`
emitting `ceil(remaining/2)` empty matches per round. -/
def scaffoldRounds (eventId : Nat) (round : Int) (remaining : Nat) : List InsertMatch :=
  scaffoldGo eventId remaining round remaining

/-- Body of the `processByeMatches` loop for one bye: feed its winner into the
Round-2 slot `⌊match_number/2⌋`, `team1` when the bye's slot is even, else
`team2`. -/
def applyByeFeed (ms : List InsertMatch) (bye : InsertMatch) : List InsertMatch :=
  let nextMatchNumber := bye.match_number / 2
  let isTopSlot := bye.match_number % 2 == 0
  updateFirst (fun m => m.round == 2 && m.match_number == nextMatchNumber)
    (fun m => if isTopSlot then { m with team1_id := bye.winner_id }
              else { m with team2_id := bye.winner_id }) ms

/-- `processByeMatches`: collect the Round-1 byes with a winner, then feed each
into Round 2. -/
def processByeMatches (ms : List InsertMatch) : List InsertMatch :=
  let byeMatches := ms.filter (fun m => m.round == 1 && m.is_bye && m.winner_id.isSome)
  byeMatches.foldl applyByeFeed ms

/-- `generateInitialBracket(eventId, teams, championGetsBye)`. -/
def generateInitialBracket (eventId : Nat) (teams : List TeamWithPlayers)
    (championGetsBye : Bool) : List InsertMatch :=
  let totalTeams := teams.length
  let isOdd := totalTeams % 2 == 1
  -- Champion gets bye ONLY when enabled AND odd team count
  let championTeam := if championGetsBye && isOdd
    then teams.find? (fun t => t.is_reigning_champion) else none
  let nonChampTeams := match championTeam with
    | some c => teams.filter (fun t => t.id != c.id)
    | none => teams
  let actualMatchCount := (nonChampTeams.length + 1) / 2
  let r1 := round1Matches eventId nonChampTeams 0
  let remaining := actualMatchCount + (if championTeam.isSome then 1 else 0)
  let ms := r1 ++ scaffoldRounds eventId 2 remaining
  let ms := processByeMatches ms
  let ms := match championTeam with
    | some c =>
      let championTarget := (actualMatchCount - 1) / 2
      updateFirst (fun m => m.round == 2 && m.match_number == championTarget)
        (fun m => { m with team2_id := some c.id }) ms
    | none => ms
  let lb1Matches := actualMatchCount / 2
  ms ++ ((List.range lb1Matches).map (fun i =>
      { event_id := eventId, round := -1, match_number := i, team1_id := none,
        team2_id := none, winner_id := none, loser_id := none, is_bye := false }))
    ++ [{ event_id := eventId, round := 0, match_number := 0, team1_id := none,
          team2_id := none, winner_id := none, loser_id := none, is_bye := false }]

/-! ## Progression engine (`updateBracketAfterMatch` and helpers) -/

/-- `const championId = champion?.id` of the bye sweep. -/
def sweepChampionId (teams : List TeamWithPlayers) : Option Nat :=
  (teams.find? (fun t => t.is_reigning_champion)).map (fun t => t.id)

/-- The "DO NOT auto-advance champion" guard of the bye sweep. -/
def sweepSkip (championId : Option Nat) (m : EventMatchRow) : Bool :=
  match championId with
  | some cid => m.team1_id == some cid || m.team2_id == some cid
  | none => false

/-- `const winner_id = m.team1_id ?? m.team2_id!`. -/
def sweepWinner (m : EventMatchRow) : Nat :=
  match m.team1_id with
  | some w => w
  | none => m.team2_id.getD 0

/-- The `pending` filter of the bye sweep: undecided non-bye winners-bracket
matches with exactly one occupied slot. -/
def sweepPending (matchList : List EventMatchRow) : List EventMatchRow :=
  matchList.filter (fun m =>
    decide (0 < m.round) && m.winner_id.isNone && !m.is_bye &&
      ((m.team1_id.isSome && m.team2_id.isNone) || (m.team1_id.isNone && m.team2_id.isSome)))

/-- The forwarding step of the bye sweep: the resolved bye's winner fills the
first empty slot of the next-round match, or the grand final's `team1`. -/
def sweepForward (matchList : List EventMatchRow) (m : EventMatchRow)
    (winner_id : Nat) : List Mutation :=
  match matchList.find? (fun n =>
      n.round == m.round + 1 && n.match_number == m.match_number / 2) with
  | some next =>
    if next.team1_id.isNone then [.update next.id (pmTeam1 (some winner_id))]
    else if next.team2_id.isNone then [.update next.id (pmTeam2 (some winner_id))]
    else []
  | none =>
    match matchList.find? (fun n => n.round == 0) with
    | some grandFinal => [.update grandFinal.id (pmTeam1 (some winner_id))]
    | none => []

/-- `autoAdvanceWinnersByes(matches, teams)`: resolve every pending
winners-bracket match that has exactly one occupied slot as a bye and forward
its winner — skipping any match that contains the reigning champion. -/
def autoAdvanceWinnersByes (matchList : List EventMatchRow)
    (teams : List TeamWithPlayers) : List Mutation :=
  let championId := sweepChampionId teams
  (sweepPending matchList).foldl (fun updates m =>
    -- DO NOT auto-advance champion
    if sweepSkip championId m then updates
    else
      updates ++ [.update m.id (pmResolve (sweepWinner m))]
        ++ sweepForward matchList m (sweepWinner m)) []

/-- `const loser_id = winner_id === team1_id ? team2_id : team1_id`. -/
def loserOf (c : EventMatchRow) : Option Nat :=
  if c.winner_id == c.team1_id then c.team2_id else c.team1_id

/-- The bye-behavior branch of `updateBracketAfterMatch` (round > 0 only):
forward the bye's winner to the next round by the even/odd slot rule, or into
the grand final's `team1`. -/
def byeForward (ms : List EventMatchRow) (c : EventMatchRow) (w : Nat) : List Mutation :=
  match ms.find? (fun m =>
      m.round == c.round + 1 && m.match_number == c.match_number / 2) with
  | some nextMatch =>
    [.update nextMatch.id
      (if c.match_number % 2 == 0 then pmTeam1 (some w) else pmTeam2 (some w))]
  | none =>
    match ms.find? (fun m => m.round == 0) with
    | some gf => [.update gf.id (pmTeam1 (some w))]
    | none => []

/-- The winners-bracket forwarding step of `updateBracketAfterMatch`: target
slot is `⌊match_number · nextCount / currCount⌋` for Round 1 (when both round
sizes are positive) and `⌊match_number / 2⌋` otherwise; the winner fills
`team1` if empty, else `team2` if empty; with no target match it lands in the
grand final's `team1`. -/
def winnersForward (ms : List EventMatchRow) (c : EventMatchRow) (w : Nat) : List Mutation :=
  let nextRound := c.round + 1
  let currCount := (ms.filter (fun m => m.round == c.round)).length
  let nextCount := (ms.filter (fun m => m.round == nextRound)).length
  -- R1 → R2 correct distribution
  let nextMatchNumber :=
    if c.round == 1 && decide (0 < currCount) && decide (0 < nextCount)
    then (c.match_number * nextCount) / currCount
    else c.match_number / 2
  match ms.find? (fun m => m.round == nextRound && m.match_number == nextMatchNumber) with
  | some nextMatch =>
    if nextMatch.team1_id.isNone then [.update nextMatch.id (pmTeam1 (some w))]
    else if nextMatch.team2_id.isNone then [.update nextMatch.id (pmTeam2 (some w))]
    else []
  | none =>
    match ms.find? (fun m => m.round == 0) with
    | some gf => [.update gf.id (pmTeam1 (some w))]
    | none => []

/-- The send-loser-to-losers-bracket step of `updateBracketAfterMatch`:
round 1 → −1, round 2 → −4, round r → −(2r − 2); the target is created lazily
with the loser in the parity slot, or the parity slot of the existing match is
filled if still empty. -/
def losersDrop (ms : List EventMatchRow) (c : EventMatchRow) (loser_id : Option Nat) :
    List Mutation :=
  let lbRound : Int :=
    if c.round == 1 then -1 else if c.round == 2 then -4 else -(2 * c.round - 2)
  let lbMatchNumber := if c.round == 2 then 0 else c.match_number / 2
  let placeTop := c.match_number % 2 == 0
  match ms.find? (fun m => m.round == lbRound && m.match_number == lbMatchNumber) with
  | none =>
    [.insert { event_id := c.event_id, round := lbRound, match_number := lbMatchNumber,
               team1_id := if placeTop then loser_id else none,
               team2_id := if placeTop then none else loser_id,
               winner_id := none, loser_id := none, is_bye := false }]
  | some existingLB =>
    if placeTop && existingLB.team1_id.isNone then
      [.update existingLB.id (pmTeam1 loser_id)]
    else if !placeTop && existingLB.team2_id.isNone then
      [.update existingLB.id (pmTeam2 loser_id)]
    else []

/-- The losers-bracket branch of `updateBracketAfterMatch` (round < 0): the
winner advances to round `round − 1` at slot `⌊match_number / 2⌋`; when the
originating round's absolute value is odd it always lands in `team1`, else the
even/odd slot rule applies; when no match of the target round exists at all
and a grand final exists, the winner becomes the grand final's `team2`. -/
def losersAdvance (ms : List EventMatchRow) (c : EventMatchRow) (w : Nat) : List Mutation :=
  let nextLBRound := c.round - 1
  let nextLBMatchNo := c.match_number / 2
  let isOddLB := c.round.natAbs % 2 == 1
  let placeTop := c.match_number % 2 == 0
  match ms.find? (fun m => m.round == nextLBRound && m.match_number == nextLBMatchNo) with
  | none =>
    match ms.find? (fun m => m.round == 0), ms.any (fun m => m.round == nextLBRound) with
    | some gf, false => [.update gf.id (pmTeam2 (some w))]
    | _, _ =>
      [.insert { event_id := c.event_id, round := nextLBRound, match_number := nextLBMatchNo,
                 team1_id := if isOddLB then some w else if placeTop then some w else none,
                 team2_id := if isOddLB then none else if placeTop then none else some w,
                 winner_id := none, loser_id := none, is_bye := false }]
  | some nextLB =>
    if isOddLB then [.update nextLB.id (pmTeam1 (some w))]
    else [.update nextLB.id (if placeTop then pmTeam1 (some w) else pmTeam2 (some w))]

/-- `updateBracketAfterMatch(matches, completedMatchId, teams)`: the main match
progression. Returns the empty mutation list when the match is unknown or has
no winner (the TS code `return updates` early with only the empty array). -/
def updateBracketAfterMatch (matchList : List EventMatchRow) (completedMatchId : Nat)
    (teams : List TeamWithPlayers) : List Mutation :=
  match matchList.find? (fun m => m.id == completedMatchId) with
  | none => []
  | some completed =>
    match completed.winner_id with
    | none => []
    | some w =>
      let loser_id := loserOf completed
      let base : List Mutation := [.update completedMatchId (pmLoser loser_id)]
      if loser_id.isNone && completed.is_bye then
        base ++ (if 0 < completed.round then byeForward matchList completed w else [])
      else
        base
          ++ (if 0 < completed.round then
                winnersForward matchList completed w ++ losersDrop matchList completed loser_id
              else [])
          ++ (if completed.round < 0 then losersAdvance matchList completed w else [])
          ++ autoAdvanceWinnersByes matchList teams

/-! ## Simplified loss-tracking facade (`tournamentLogic.ts`) -/

/-- `Team.status` in `tournamentLogic.ts`: `"active" | "eliminated" | "champion"`. -/
inductive TStatus where
  | active
  | eliminated
  | champion
deriving DecidableEq, Repr

/-- One entry of `Team.matchHistory`. -/
structure HistoryEntry where
  matchId : String
  result : String
  opponent : String
deriving DecidableEq, Repr

/-- The facade's `Team` record. -/
structure TLTeam where
  teamId : String
  teamName : String
  players : String × String
  losses : Nat
  isChampion : Bool
  hadBye : Bool
  matchHistory : List HistoryEntry
  status : TStatus
deriving DecidableEq, Repr

/-- `getActiveTeams()`: teams with `status !== "eliminated" && losses < 2`.
Taken as a function of the team list (the TS module keeps the list in a
module-level variable; we pass it explicitly). -/
def getActiveTeams (teams : List TLTeam) : List TLTeam :=
  teams.filter (fun t => t.status != TStatus.eliminated && decide (t.losses < 2))

/-- The loser-side mutation of `recordMatchResult`: `losses += 1`, and
`status = "eliminated"` when the new count is exactly 2. -/
def applyLoss (t : TLTeam) : TLTeam :=
  let t1 := { t with losses := t.losses + 1 }
  if t1.losses == 2 then { t1 with status := TStatus.eliminated } else t1

/-- `matchHistory.push(e)`. -/
def pushHistory (e : HistoryEntry) (t : TLTeam) : TLTeam :=
  { t with matchHistory := t.matchHistory ++ [e] }

/-- `recordMatchResult(matchId, winnerTeamId, loserTeamId)` as a pure function
of the team list. Returns `none` where the TS code throws
`"Invalid team IDs"`; otherwise `some` of the updated list: the loser takes a
loss (eliminated at exactly 2), both histories are extended, and if exactly
one active team remains, the first active team becomes the champion
(`active[0].status = "champion"`). -/
def recordMatchResult (teams : List TLTeam)
    (matchId winnerTeamId loserTeamId : String) : Option (List TLTeam) :=
  match teams.find? (fun t => t.teamId == winnerTeamId),
        teams.find? (fun t => t.teamId == loserTeamId) with
  | some winner, some loser =>
    let s1 := updateFirst (fun t => t.teamId == loserTeamId) applyLoss teams
    let s2 := updateFirst (fun t => t.teamId == winnerTeamId)
      (pushHistory ⟨matchId, "W", loser.teamName⟩) s1
    let s3 := updateFirst (fun t => t.teamId == loserTeamId)
      (pushHistory ⟨matchId, "L", winner.teamName⟩) s2
    some (if (getActiveTeams s3).length == 1 then
        updateFirst (fun t => t.status != TStatus.eliminated && decide (t.losses < 2))
          (fun t => { t with status := TStatus.champion }) s3
      else s3)
  | _, _ => none

/-- The pairing loop of `initializeTournament`: consecutive pairs of the
shuffled player list become teams; a trailing unpaired player is skipped
(`i + 1 < shuffled.length` guard). `k` numbers the generated team ids (the TS
`generateTeamId` draws on `Date.now()`/`Math.random()`; only distinctness of
the ids matters, so we determinize it with a counter). -/
def mkTeamsFromPairs : List String → Nat → List TLTeam
  | p1 :: p2 :: rest, k =>
    { teamId := "team_" ++ toString k, teamName := p1 ++ " & " ++ p2,
      players := (p1, p2), losses := 0, isChampion := false, hadBye := false,
      matchHistory := [], status := TStatus.active } :: mkTeamsFromPairs rest (k + 1)
  | _, _ => []

/-- `initializeTournament(enrolledPlayers, championTeam?, championGetsBye)`.
The uniform shuffle (`shuffleArray`, a Fisher–Yates over `Math.random`) is
modelled as an explicit `shuffle` function parameter; theorems assume only
that it permutes its input. -/
def initializeTournament (enrolledPlayers : List String)
    (championTeam : Option (String × String)) (championGetsBye : Bool)
    (shuffle : List String → List String) : List TLTeam :=
  let champList : List TLTeam := match championTeam with
    | some c =>
      [{ teamId := "team_champ", teamName := c.1 ++ " & " ++ c.2,
         players := (c.1, c.2), losses := 0, isChampion := true,
         hadBye := championGetsBye, matchHistory := [], status := TStatus.active }]
    | none => []
  let remainingPlayers := match championTeam with
    | some c => enrolledPlayers.filter (fun p => !(p == c.1 || p == c.2))
    | none => enrolledPlayers
  let shuffled := shuffle remainingPlayers
  champList ++ mkTeamsFromPairs shuffled 0

/-! ## The spec's bracket-size arithmetic -/

/-- Modelled from the spec (not from the code, which has no such computation):
`bracketSize = next power of two >= n` — the smallest power of two that is at
least `n` (`nextPow2`). Used only to state what the spec predicts. -/
def specNextPow2Go : Nat → Nat → Nat
  | 0, _ => 1
  | fuel + 1, n => if 1 < n then 2 * specNextPow2Go fuel ((n + 1) / 2) else 1

/-- See `specNextPow2Go`; `fuel = n` always suffices. -/
def specNextPow2 (n : Nat) : Nat := specNextPow2Go n n

/-! ## Generic lemmas about `updateFirst` -/

theorem length_updateFirst (p : α → Bool) (f : α → α) :
    ∀ l : List α, (updateFirst p f l).length = l.length := by
  intro l
  induction l with
  | nil => rfl
  | cons x xs ih =>
    simp only [updateFirst]
    split <;> simp [ih]

theorem mem_updateFirst {p : α → Bool} {f : α → α} {l : List α} {y : α}
    (hy : y ∈ updateFirst p f l) : y ∈ l ∨ ∃ x ∈ l, p x = true ∧ y = f x := by
  induction l with
  | nil => simp [updateFirst] at hy
  | cons x xs ih =>
    simp only [updateFirst] at hy
    split at hy
    · rcases List.mem_cons.mp hy with h | h
      · exact Or.inr ⟨x, List.mem_cons_self x xs, by tauto⟩
      · exact Or.inl (List.mem_cons_of_mem x h)
    · rcases List.mem_cons.mp hy with h | h
      · exact Or.inl (h ▸ List.mem_cons_self x xs)
      · rcases ih h with h' | ⟨z, hz, hpz, hyz⟩
        · exact Or.inl (List.mem_cons_of_mem x h')
        · exact Or.inr ⟨z, List.mem_cons_of_mem x hz, hpz, hyz⟩

theorem exists_image_mem_updateFirst {p : α → Bool} (f : α → α) {l : List α} {x : α}
    (hx : x ∈ l) (hpx : p x = true) :
    ∃ z ∈ l, p z = true ∧ f z ∈ updateFirst p f l := by
  induction l with
  | nil => simp at hx
  | cons a as ih =>
    by_cases hpa : p a = true
    · exact ⟨a, List.mem_cons_self a as, hpa, by simp [updateFirst, hpa]⟩
    · rcases List.mem_cons.mp hx with rfl | hmem
      · exact absurd hpx hpa
      · rcases ih hmem with ⟨z, hz, hpz, hfz⟩
        refine ⟨z, List.mem_cons_of_mem a hz, hpz, ?_⟩
        simp [updateFirst, hpa, hfz]

theorem length_filter_updateFirst {q p : α → Bool} {f : α → α}
    (h : ∀ x, q (f x) = q x) :
    ∀ l : List α, ((updateFirst p f l).filter q).length = (l.filter q).length := by
  intro l
  induction l with
  | nil => rfl
  | cons x xs ih =>
    simp only [updateFirst]
    split
    · simp only [List.filter, h]
      cases hq : q x <;> simp
    · simp only [List.filter]
      cases hq : q x <;> simp [ih]

theorem exists_mem_updateFirst_of_pres {q p : α → Bool} {f : α → α}
    (h : ∀ x, q (f x) = q x) {l : List α} (hl : ∃ x ∈ l, q x = true) :
    ∃ y ∈ updateFirst p f l, q y = true := by
  induction l with
  | nil => simp at hl
  | cons a as ih =>
    rcases hl with ⟨x, hx, hqx⟩
    by_cases hpa : p a = true
    · rcases List.mem_cons.mp hx with rfl | hmem
      · exact ⟨f x, by simp [updateFirst, hpa], (h x).trans hqx⟩
      · exact ⟨x, by simp [updateFirst, hpa, hmem], hqx⟩
    · rcases List.mem_cons.mp hx with rfl | hmem
      · exact ⟨x, by simp [updateFirst, hpa], hqx⟩
      · rcases ih ⟨x, hmem, hqx⟩ with ⟨y, hy, hqy⟩
        exact ⟨y, by simp [updateFirst, hpa, List.mem_cons]; right; exact hy, hqy⟩

/-! ## Concrete fixtures -/

/-- Five plain teams with ids 1..5, none a reigning champion. -/
def teams5 : List TeamWithPlayers :=
  [⟨1, 1, 1, 2, false⟩, ⟨2, 1, 3, 4, false⟩, ⟨3, 1, 5, 6, false⟩,
   ⟨4, 1, 7, 8, false⟩, ⟨5, 1, 9, 10, false⟩]

/-- Six teams, the first flagged reigning champion. -/
def teams6 : List TeamWithPlayers :=
  [⟨1, 1, 1, 2, true⟩, ⟨2, 1, 3, 4, false⟩, ⟨3, 1, 5, 6, false⟩,
   ⟨4, 1, 7, 8, false⟩, ⟨5, 1, 9, 10, false⟩, ⟨6, 1, 11, 12, false⟩]

/-- Seven teams, the first flagged reigning champion. -/
def teams7 : List TeamWithPlayers :=
  [⟨1, 1, 1, 2, true⟩, ⟨2, 1, 3, 4, false⟩, ⟨3, 1, 5, 6, false⟩,
   ⟨4, 1, 7, 8, false⟩, ⟨5, 1, 9, 10, false⟩, ⟨6, 1, 11, 12, false⟩,
   ⟨7, 1, 13, 14, false⟩]

/-! ## C1 — bracket size and bye count -/

/-- C1 counterexample: for 5 teams and no champion, `generateInitialBracket`
produces 6 winners-bracket matches with exactly 1 bye, whereas the claim
demands `nextPow2(5) − 1 = 7` matches and `nextPow2(5) − 5 = 3` byes. -/
theorem generateInitialBracket_five_teams_refutes_pow2 :
    ((generateInitialBracket 1 teams5 false).filter
        (fun m => decide (0 < m.round))).length = 6 ∧
    ((generateInitialBracket 1 teams5 false).filter
        (fun m => decide (0 < m.round) && m.is_bye)).length = 1 ∧
    specNextPow2 5 - 1 = 7 ∧ specNextPow2 5 - 5 = 3 ∧
    ¬ ((generateInitialBracket 1 teams5 false).filter
        (fun m => decide (0 < m.round))).length = specNextPow2 5 - 1 ∧
    ¬ ((generateInitialBracket 1 teams5 false).filter
        (fun m => decide (0 < m.round) && m.is_bye)).length = specNextPow2 5 - 5 := by
  decide

/-- `scaffoldGo` does not depend on its fuel as long as the fuel is at least
`remaining`. -/
theorem scaffoldGo_congr (eventId : Nat) :
    ∀ f1 f2 : Nat, ∀ round : Int, ∀ remaining : Nat,
      remaining ≤ f1 → remaining ≤ f2 →
      scaffoldGo eventId f1 round remaining = scaffoldGo eventId f2 round remaining := by
  intro f1
  induction f1 with
  | zero =>
    intro f2 round remaining h1 _
    interval_cases remaining
    cases f2 <;> simp [scaffoldGo]
  | succ f ih =>
    intro f2 round remaining h1 h2
    cases f2 with
    | zero =>
      interval_cases remaining
      simp [scaffoldGo]
    | succ f' =>
      simp only [scaffoldGo]
      by_cases hr : 1 < remaining
      · simp only [if_pos hr]
        have hlt : (remaining + 1) / 2 < remaining := by omega
        rw [ih f' (round + 1) ((remaining + 1) / 2) (by omega) (by omega)]
      · simp [if_neg hr]

/-- The loop equation of the scaffolding: one round of `ceil(remaining/2)`
matches, then the rest with the halved count. -/
theorem scaffoldRounds_unfold (eventId : Nat) (round : Int) (remaining : Nat) :
    scaffoldRounds eventId round remaining =
      if 1 < remaining then
        ((List.range ((remaining + 1) / 2)).map (scaffoldRow eventId round))
          ++ scaffoldRounds eventId (round + 1) ((remaining + 1) / 2)
      else [] := by
  unfold scaffoldRounds
  by_cases hr : 1 < remaining
  · obtain ⟨f, rfl⟩ : ∃ f, remaining = f + 1 := ⟨remaining - 1, by omega⟩
    simp only [scaffoldGo, if_pos hr]
    rw [scaffoldGo_congr eventId f ((f + 1 + 1) / 2) (round + 1) ((f + 1 + 1) / 2)
      (by omega) (by omega)]
  · interval_cases remaining <;> simp [scaffoldGo, hr]

/-- Every row the scaffolding emits carries a round at least the starting
round. -/
theorem scaffoldRounds_round_ge (eventId : Nat) :
    ∀ remaining : Nat, ∀ round : Int, ∀ m ∈ scaffoldRounds eventId round remaining,
      round ≤ m.round := by
  intro remaining
  induction remaining using Nat.strong_induction_on with
  | _ remaining ih =>
    intro round m hm
    rw [scaffoldRounds_unfold] at hm
    by_cases hr : 1 < remaining
    · rw [if_pos hr] at hm
      rcases List.mem_append.mp hm with hm | hm
      · rcases List.mem_map.mp hm with ⟨i, _, rfl⟩
        simp [scaffoldRow]
      · have := ih ((remaining + 1) / 2) (by omega) (round + 1) m hm
        omega
    · rw [if_neg hr] at hm
      simp at hm

/-! ## C2 — grand final / true double elimination -/

/-- A decided grand final: round 0, winners-bracket finalist 10 in `team1`,
losers-bracket finalist 20 in `team2`, won by the losers-bracket finalist. -/
def decidedGrandFinal : EventMatchRow :=
  { id := 1, event_id := 1, round := 0, match_number := 0, team1_id := some 10,
    team2_id := some 20, winner_id := some 20, loser_id := none, is_bye := false }

/-- C2: when the grand final is decided with the losers-bracket finalist as
winner, `updateBracketAfterMatch` emits exactly one mutation — recording the
loser on the grand final itself. No second grand-final match is inserted and
no reset of any kind is produced: round 0 has no progression branch at all
(`round > 0` and `round < 0` are the only cases). -/
theorem updateBracketAfterMatch_grand_final_no_reset :
    updateBracketAfterMatch [decidedGrandFinal] 1 [] =
      [Mutation.update 1 (pmLoser (some 10))] ∧
    (updateBracketAfterMatch [decidedGrandFinal] 1 []).all
      (fun u => match u with | Mutation.insert _ => false | Mutation.update _ _ => true) = true := by
  decide

/-- Round-1 generation produces `ceil(n/2)` matches. -/
theorem round1Matches_length (eventId : Nat) :
    ∀ (l : List TeamWithPlayers) (i : Nat),
      (round1Matches eventId l i).length = (l.length + 1) / 2
  | [], _ => by simp [round1Matches]
  | [t], _ => by simp [round1Matches]
  | t1 :: t2 :: rest, i => by
    have ih := round1Matches_length eventId rest (i + 1)
    simp only [round1Matches, List.length_cons, ih]
    omega

/-- Every Round-1 row has `round = 1`. -/
theorem round1Matches_round (eventId : Nat) :
    ∀ (l : List TeamWithPlayers) (i : Nat), ∀ m ∈ round1Matches eventId l i, m.round = 1
  | [], _ => by simp [round1Matches]
  | [t], _ => by simp [round1Matches]
  | t1 :: t2 :: rest, i => by
    intro m hm
    rcases List.mem_cons.mp hm with rfl | hm
    · rfl
    · exact round1Matches_round eventId rest (i + 1) m hm

/-- Round-1 generation produces exactly `n % 2` byes. -/
theorem round1Matches_byes (eventId : Nat) :
    ∀ (l : List TeamWithPlayers) (i : Nat),
      ((round1Matches eventId l i).filter (fun m => m.round == 1 && m.is_bye)).length
        = l.length % 2
  | [], _ => by simp [round1Matches]
  | [t], _ => by simp [round1Matches]
  | t1 :: t2 :: rest, i => by
    have ih := round1Matches_byes eventId rest (i + 1)
    simp only [round1Matches, List.filter, List.length_cons]
    norm_num
    rw [ih]
    omega

/-- Filter counts that ignore `team1_id`/`team2_id` survive `applyByeFeed`. -/
theorem length_filter_applyByeFeed (q : InsertMatch → Bool)
    (h1 : ∀ (m : InsertMatch) (v : Option Nat), q { m with team1_id := v } = q m)
    (h2 : ∀ (m : InsertMatch) (v : Option Nat), q { m with team2_id := v } = q m)
    (ms : List InsertMatch) (bye : InsertMatch) :
    ((applyByeFeed ms bye).filter q).length = (ms.filter q).length := by
  unfold applyByeFeed
  apply length_filter_updateFirst
  intro x
  by_cases ht : (bye.match_number % 2 == 0) = true <;> simp [ht, h1, h2]

/-- Filter counts that ignore `team1_id`/`team2_id` survive the whole
bye-feeding pass. -/
theorem length_filter_processByeMatches (q : InsertMatch → Bool)
    (h1 : ∀ (m : InsertMatch) (v : Option Nat), q { m with team1_id := v } = q m)
    (h2 : ∀ (m : InsertMatch) (v : Option Nat), q { m with team2_id := v } = q m)
    (ms : List InsertMatch) :
    ((processByeMatches ms).filter q).length = (ms.filter q).length := by
  unfold processByeMatches
  generalize (ms.filter (fun m => m.round == 1 && m.is_bye && m.winner_id.isSome)) = byes
  induction byes generalizing ms with
  | nil => rfl
  | cons b bs ih =>
    simp only [List.foldl_cons]
    rw [ih (applyByeFeed ms b), length_filter_applyByeFeed q h1 h2]

/-- C1 amended: with no champion bye in play, the builder creates `⌈n/2⌉`
Round-1 matches of which exactly `n % 2` are byes — it never pads the field
to a power of two. -/
theorem generateInitialBracket_round1_profile (eventId : Nat)
    (teams : List TeamWithPlayers) :
    (((generateInitialBracket eventId teams false).filter
        (fun m => m.round == 1)).length = (teams.length + 1) / 2) ∧
    (((generateInitialBracket eventId teams false).filter
        (fun m => m.round == 1 && m.is_bye)).length = teams.length % 2) := by
  have hgen : generateInitialBracket eventId teams false =
      processByeMatches (round1Matches eventId teams 0
          ++ scaffoldRounds eventId 2 ((teams.length + 1) / 2 + 0))
        ++ ((List.range (((teams.length + 1) / 2) / 2)).map (fun i =>
            { event_id := eventId, round := -1, match_number := i, team1_id := none,
              team2_id := none, winner_id := none, loser_id := none, is_bye := false }))
        ++ [{ event_id := eventId, round := 0, match_number := 0, team1_id := none,
              team2_id := none, winner_id := none, loser_id := none, is_bye := false }] := rfl
  constructor
  · rw [hgen]
    rw [List.filter_append, List.filter_append, List.length_append, List.length_append]
    have h2 : (List.filter (fun m => m.round == 1)
        (((List.range (((teams.length + 1) / 2) / 2)).map (fun i =>
            { event_id := eventId, round := -1, match_number := i, team1_id := none,
              team2_id := none, winner_id := none, loser_id := none,
              is_bye := false : InsertMatch })))) = [] := by
      rw [List.filter_eq_nil_iff]
      intro a ha
      rcases List.mem_map.mp ha with ⟨i, _, rfl⟩
      simp
    have h3 : (List.filter (fun m => m.round == 1)
        [{ event_id := eventId, round := 0, match_number := 0, team1_id := none,
           team2_id := none, winner_id := none, loser_id := none,
           is_bye := false : InsertMatch }]) = [] := by simp [List.filter]
    rw [h2, h3]
    simp only [List.length_nil, Nat.add_zero]
    rw [length_filter_processByeMatches (fun m => m.round == 1)
      (fun m v => rfl) (fun m v => rfl)]
    rw [List.filter_append, List.length_append]
    have h4 : (List.filter (fun m => m.round == 1)
        (scaffoldRounds eventId 2 ((teams.length + 1) / 2))) = [] := by
      rw [List.filter_eq_nil_iff]
      intro a ha
      have := scaffoldRounds_round_ge eventId ((teams.length + 1) / 2) 2 a ha
      simp only [beq_iff_eq]
      omega
    rw [h4]
    have h5 : (List.filter (fun m => m.round == 1) (round1Matches eventId teams 0))
        = round1Matches eventId teams 0 := by
      rw [List.filter_eq_self]
      intro a ha
      have := round1Matches_round eventId teams 0 a ha
      simp [this]
    rw [h5, round1Matches_length]
    simp
  · rw [hgen]
    rw [List.filter_append, List.filter_append, List.length_append, List.length_append]
    have h2 : (List.filter (fun m => m.round == 1 && m.is_bye)
        (((List.range (((teams.length + 1) / 2) / 2)).map (fun i =>
            { event_id := eventId, round := -1, match_number := i, team1_id := none,
              team2_id := none, winner_id := none, loser_id := none,
              is_bye := false : InsertMatch })))) = [] := by
      rw [List.filter_eq_nil_iff]
      intro a ha
      rcases List.mem_map.mp ha with ⟨i, _, rfl⟩
      simp
    have h3 : (List.filter (fun m => m.round == 1 && m.is_bye)
        [{ event_id := eventId, round := 0, match_number := 0, team1_id := none,
           team2_id := none, winner_id := none, loser_id := none,
           is_bye := false : InsertMatch }]) = [] := by simp [List.filter]
    rw [h2, h3]
    simp only [List.length_nil, Nat.add_zero]
    rw [length_filter_processByeMatches (fun m => m.round == 1 && m.is_bye)
      (fun m v => rfl) (fun m v => rfl)]
    rw [List.filter_append, List.length_append]
    have h4 : (List.filter (fun m => m.round == 1 && m.is_bye)
        (scaffoldRounds eventId 2 ((teams.length + 1) / 2))) = [] := by
      rw [List.filter_eq_nil_iff]
      intro a ha
      have := scaffoldRounds_round_ge eventId ((teams.length + 1) / 2) 2 a ha
      simp only [Bool.and_eq_true, beq_iff_eq]
      intro h
      omega
    rw [h4]
    rw [round1Matches_byes]
    simp

/-! ## C3 — champion exclusion from Round 1 -/

/-- C3 counterexample: with 6 teams (an even count), a flagged champion and
`championGetsBye = true`, the champion (id 1) is *not* excluded — it is paired
into a Round-1 match, because the code grants the champion bye only when the
team count is odd. -/
theorem generateInitialBracket_six_teams_champion_in_round1 :
    ∃ m ∈ generateInitialBracket 1 teams6 true, m.round = 1 ∧
      (m.team1_id = some 1 ∨ m.team2_id = some 1) := by
  decide

/-- Team references appearing in Round-1 rows come from the supplied list. -/
theorem round1Matches_team_mem (eventId : Nat) :
    ∀ (l : List TeamWithPlayers) (i : Nat), ∀ m ∈ round1Matches eventId l i,
      ∀ x : Nat, (m.team1_id = some x ∨ m.team2_id = some x) → ∃ t ∈ l, t.id = x
  | [], _ => by simp [round1Matches]
  | [t], _ => by
    intro m hm x hx
    simp only [round1Matches, List.mem_singleton] at hm
    subst hm
    rcases hx with h | h
    · exact ⟨t, List.mem_singleton_self t, by simpa using h⟩
    · simp at h
  | t1 :: t2 :: rest, i => by
    intro m hm x hx
    rcases List.mem_cons.mp hm with rfl | hm
    · rcases hx with h | h
      · exact ⟨t1, by simp, by simpa using h⟩
      · exact ⟨t2, by simp, by simpa using h⟩
    · rcases round1Matches_team_mem eventId rest (i + 1) m hm x hx with ⟨t, ht, hid⟩
      exact ⟨t, by simp [ht], hid⟩

/-- Elements of the bye-fed list are either original or Round-2 rows. -/
theorem mem_processByeMatches {ms : List InsertMatch} {y : InsertMatch}
    (hy : y ∈ processByeMatches ms) : y ∈ ms ∨ y.round = 2 := by
  unfold processByeMatches at hy
  generalize (ms.filter (fun m => m.round == 1 && m.is_bye && m.winner_id.isSome)) = byes at hy
  induction byes generalizing ms with
  | nil => exact Or.inl hy
  | cons b bs ih =>
    simp only [List.foldl_cons] at hy
    rcases @ih (applyByeFeed ms b) hy with h | h
    · unfold applyByeFeed at h
      rcases mem_updateFirst h with h' | ⟨x, _, hpx, rfl⟩
      · exact Or.inl h'
      · right
        simp only [Bool.and_eq_true, beq_iff_eq] at hpx
        split <;> exact hpx.1
    · exact Or.inr h

/-- Predicates that ignore the two team fields are preserved (existentially)
through the bye-feeding pass. -/
theorem exists_mem_processByeMatches (q : InsertMatch → Bool)
    (h1 : ∀ (m : InsertMatch) (v : Option Nat), q { m with team1_id := v } = q m)
    (h2 : ∀ (m : InsertMatch) (v : Option Nat), q { m with team2_id := v } = q m)
    {ms : List InsertMatch} (hex : ∃ x ∈ ms, q x = true) :
    ∃ y ∈ processByeMatches ms, q y = true := by
  unfold processByeMatches
  generalize (ms.filter (fun m => m.round == 1 && m.is_bye && m.winner_id.isSome)) = byes
  induction byes generalizing ms with
  | nil => exact hex
  | cons b bs ih =>
    simp only [List.foldl_cons]
    apply ih
    unfold applyByeFeed
    apply exists_mem_updateFirst_of_pres _ hex
    intro x
    by_cases ht : (b.match_number % 2 == 0) = true <;> simp [ht, h1, h2]

/-- Unfolding of `generateInitialBracket` when the champion bye actually
fires: `championGetsBye = true`, an odd team count, and a flagged champion. -/
theorem generateInitialBracket_champion_eq (eventId : Nat)
    (teams : List TeamWithPlayers) (c : TeamWithPlayers)
    (hodd : teams.length % 2 = 1)
    (hch : teams.find? (fun t => t.is_reigning_champion) = some c) :
    generateInitialBracket eventId teams true =
      updateFirst (fun m => m.round == 2 && m.match_number ==
          (((teams.filter (fun t => t.id != c.id)).length + 1) / 2 - 1) / 2)
        (fun m => { m with team2_id := some c.id })
        (processByeMatches (round1Matches eventId (teams.filter (fun t => t.id != c.id)) 0
          ++ scaffoldRounds eventId 2
              (((teams.filter (fun t => t.id != c.id)).length + 1) / 2 + 1)))
      ++ ((List.range ((((teams.filter (fun t => t.id != c.id)).length + 1) / 2) / 2)).map
          (fun i => { event_id := eventId, round := -1, match_number := i, team1_id := none,
                      team2_id := none, winner_id := none, loser_id := none, is_bye := false }))
      ++ [{ event_id := eventId, round := 0, match_number := 0, team1_id := none,
            team2_id := none, winner_id := none, loser_id := none, is_bye := false }] := by
  have hb : (true && (teams.length % 2 == 1)) = true := by simp [hodd]
  simp only [generateInitialBracket, hb, if_true, hch, Option.isSome_some, if_pos]

/-- Filtering out the `p`-elements drops exactly `countP p` of them. -/
theorem length_filter_not (p : α → Bool) :
    ∀ l : List α, (l.filter (fun x => !p x)).length + l.countP p = l.length := by
  intro l
  induction l with
  | nil => rfl
  | cons a as ih =>
    cases h : p a <;> simp [List.filter, List.countP_cons, h] <;> omega

/-- C3 amended: the champion is excluded from Round-1 pairing and inserted
into a Round-2 `team2` slot exactly in the code's own guard case: when
`championGetsBye` is true AND the team count is odd (here with at least 3
teams so a Round 2 exists). -/
theorem generateInitialBracket_champion_odd_excluded (eventId : Nat)
    (teams : List TeamWithPlayers) (c : TeamWithPlayers)
    (hodd : teams.length % 2 = 1) (h3 : 3 ≤ teams.length)
    (hch : teams.find? (fun t => t.is_reigning_champion) = some c)
    (hnd : (teams.map (fun t => t.id)).Nodup) :
    (∀ m ∈ generateInitialBracket eventId teams true, m.round = 1 →
       m.team1_id ≠ some c.id ∧ m.team2_id ≠ some c.id) ∧
    (∃ m ∈ generateInitialBracket eventId teams true, m.round = 2 ∧
       m.team2_id = some c.id) := by
  have hgen := generateInitialBracket_champion_eq eventId teams c hodd hch
  have hc : c ∈ teams := List.mem_of_find?_eq_some hch
  -- the filtered list drops exactly the champion
  have hcount : List.countP (fun t => t.id == c.id) teams = 1 := by
    have h1 : List.countP (fun x => x == c.id) (teams.map (fun t => t.id))
        = List.countP (fun t => t.id == c.id) teams := by
      rw [List.countP_map]; rfl
    have h2 : (teams.map (fun t => t.id)).count c.id = 1 :=
      List.count_eq_one_of_mem hnd (List.mem_map_of_mem _ hc)
    rw [← h1, ← List.count_eq_countP]
    exact h2
  have hlen : (teams.filter (fun t => t.id != c.id)).length = teams.length - 1 := by
    have key := length_filter_not (fun t : TeamWithPlayers => t.id == c.id) teams
    have key2 : (teams.filter (fun t => t.id != c.id)).length
        + List.countP (fun t => t.id == c.id) teams = teams.length := key
    omega
  constructor
  · -- no Round-1 row references the champion
    intro m hm hr1
    rw [hgen] at hm
    rcases List.mem_append.mp hm with hm | hm
    swap
    · simp only [List.mem_singleton] at hm
      subst hm
      simp at hr1
    rcases List.mem_append.mp hm with hm | hm
    swap
    · rcases List.mem_map.mp hm with ⟨i, _, rfl⟩
      simp at hr1
    rcases mem_updateFirst hm with hm | ⟨x, _, hpx, rfl⟩
    swap
    · simp only [Bool.and_eq_true, beq_iff_eq] at hpx
      simp only at hr1
      omega
    rcases mem_processByeMatches hm with hm | h2
    swap
    · omega
    rcases List.mem_append.mp hm with hm | hm
    swap
    · have := scaffoldRounds_round_ge eventId _ 2 m hm
      omega
    constructor <;> intro hteam
    · rcases round1Matches_team_mem eventId _ 0 m hm c.id (Or.inl hteam) with ⟨t, ht, hid⟩
      have := (List.mem_filter.mp ht).2
      simp [hid] at this
    · rcases round1Matches_team_mem eventId _ 0 m hm c.id (Or.inr hteam) with ⟨t, ht, hid⟩
      have := (List.mem_filter.mp ht).2
      simp [hid] at this
  · -- the champion lands in a Round-2 team2 slot
    rw [hgen]
    set nc := teams.filter (fun t => t.id != c.id) with hnc
    set ac := (nc.length + 1) / 2 with hac
    have hacpos : 1 ≤ ac := by
      have : 2 ≤ nc.length := by omega
      omega
    have hscaff := scaffoldRounds_unfold eventId 2 (ac + 1)
    rw [if_pos (by omega)] at hscaff
    have htarget : (ac - 1) / 2 < (ac + 1 + 1) / 2 := by omega
    have hmemblock : scaffoldRow eventId 2 ((ac - 1) / 2) ∈
        scaffoldRounds eventId 2 (ac + 1) := by
      rw [hscaff]
      exact List.mem_append_left _ (List.mem_map_of_mem _ (List.mem_range.mpr htarget))
    have hmem0 : scaffoldRow eventId 2 ((ac - 1) / 2) ∈
        round1Matches eventId nc 0 ++ scaffoldRounds eventId 2 (ac + 1) :=
      List.mem_append_right _ hmemblock
    have hq : (fun m => m.round == 2 && m.match_number == (ac - 1) / 2)
        (scaffoldRow eventId 2 ((ac - 1) / 2)) = true := by
      simp [scaffoldRow]
    rcases exists_mem_processByeMatches
      (fun m => m.round == 2 && m.match_number == (ac - 1) / 2)
      (fun m v => rfl) (fun m v => rfl) ⟨_, hmem0, hq⟩ with ⟨y, hy, hqy⟩
    rcases @exists_image_mem_updateFirst _
      (fun m => m.round == 2 && m.match_number == (ac - 1) / 2)
      (fun m => { m with team2_id := some c.id }) _ _ hy hqy with ⟨z, _, hqz, hfz⟩
    refine ⟨{ z with team2_id := some c.id }, ?_, ?_, rfl⟩
    · exact List.mem_append_left _ (List.mem_append_left _ hfz)
    · simp only [Bool.and_eq_true, beq_iff_eq] at hqz
      exact hqz.1

/-- Witness for the C3 amended theorem at 7 teams with champion id 1. -/
theorem generateInitialBracket_champion_odd_excluded_witness :
    (teams7.length % 2 = 1 ∧ 3 ≤ teams7.length ∧
      teams7.find? (fun t => t.is_reigning_champion) = some ⟨1, 1, 1, 2, true⟩ ∧
      (teams7.map (fun t => t.id)).Nodup) ∧
    ((∀ m ∈ generateInitialBracket 1 teams7 true, m.round = 1 →
        m.team1_id ≠ some 1 ∧ m.team2_id ≠ some 1) ∧
      (∃ m ∈ generateInitialBracket 1 teams7 true, m.round = 2 ∧
        m.team2_id = some 1)) :=
  ⟨⟨by decide, by decide, by decide, by decide⟩,
    generateInitialBracket_champion_odd_excluded 1 teams7 ⟨1, 1, 1, 2, true⟩
      (by decide) (by decide) (by decide) (by decide)⟩

/-! ## C4 — losers-bracket routing -/

/-- A decided losers-bracket match (round −1, slot 1) whose winner must be
routed to round −2, slot 0, which exists and is empty. -/
def c4ms : List EventMatchRow :=
  [{ id := 1, event_id := 1, round := -1, match_number := 1, team1_id := some 10,
     team2_id := some 11, winner_id := some 10, loser_id := none, is_bye := false },
   { id := 2, event_id := 1, round := -2, match_number := 0, team1_id := none,
     team2_id := none, winner_id := none, loser_id := none, is_bye := false }]

/-- C4 counterexample: the completed match sits at round −1 (absolute value
odd), slot 1; the *target* round is −2 whose absolute value is even, so the
claim's rule ("target-round |·| even ⇒ even/odd slot rule") demands `team2`
for the odd slot 1 — but the code keys the rule on the *originating* round's
absolute value and places the winner in `team1` unconditionally. -/
theorem updateBracketAfterMatch_losers_parity_refuted :
    updateBracketAfterMatch c4ms 1 [] =
      [Mutation.update 1 (pmLoser (some 11)), Mutation.update 2 (pmTeam1 (some 10))] ∧
    Mutation.update 2 (pmTeam2 (some 10)) ∉ updateBracketAfterMatch c4ms 1 [] := by
  decide

/-- Unfolding of `updateBracketAfterMatch` on the non-bye path. -/
theorem updateBracketAfterMatch_eq (ms : List EventMatchRow) (cid : Nat)
    (teams : List TeamWithPlayers) (c : EventMatchRow) (w : Nat)
    (h1 : ms.find? (fun m => m.id == cid) = some c)
    (h2 : c.winner_id = some w)
    (h3 : ¬(loserOf c = none ∧ c.is_bye = true)) :
    updateBracketAfterMatch ms cid teams =
      Mutation.update cid (pmLoser (loserOf c)) ::
        ((if 0 < c.round then winnersForward ms c w ++ losersDrop ms c (loserOf c) else [])
          ++ (if c.round < 0 then losersAdvance ms c w else [])
          ++ autoAdvanceWinnersByes ms teams) := by
  unfold updateBracketAfterMatch
  rw [h1]
  simp only [h2]
  have hcond : ((loserOf c).isNone && c.is_bye) = false := by
    rcases Option.eq_none_or_eq_some (loserOf c) with hn | ⟨v, hv⟩
    · have : c.is_bye = false := by
        by_contra hb
        exact h3 ⟨hn, by revert hb; cases c.is_bye <;> simp⟩
      simp [this]
    · simp [hv]
  simp [hcond]

/-- C4 amended: a losers-bracket winner goes to round `round − 1` at slot
`⌊slot/2⌋`; it lands in `team1` unconditionally when the *originating* round's
absolute value is odd (equivalently, the target round's absolute value is
even), and by the even/odd originating-slot rule when it is even; if no match
of the target round exists at all and a grand final exists, the winner becomes
the grand final's `team2`. -/
theorem updateBracketAfterMatch_losers_routing (ms : List EventMatchRow)
    (cid : Nat) (teams : List TeamWithPlayers) (c : EventMatchRow) (w : Nat)
    (h1 : ms.find? (fun m => m.id == cid) = some c)
    (h2 : c.winner_id = some w)
    (h3 : c.round < 0)
    (h4 : ¬(loserOf c = none ∧ c.is_bye = true)) :
    (∀ nextLB, ms.find? (fun m => m.round == c.round - 1 &&
          m.match_number == c.match_number / 2) = some nextLB →
        (c.round.natAbs % 2 = 1 →
          Mutation.update nextLB.id (pmTeam1 (some w))
            ∈ updateBracketAfterMatch ms cid teams) ∧
        (c.round.natAbs % 2 = 0 →
          Mutation.update nextLB.id
              (if c.match_number % 2 == 0 then pmTeam1 (some w) else pmTeam2 (some w))
            ∈ updateBracketAfterMatch ms cid teams)) ∧
    (∀ gf, ms.find? (fun m => m.round == 0) = some gf →
        ms.any (fun m => m.round == c.round - 1) = false →
        Mutation.update gf.id (pmTeam2 (some w))
          ∈ updateBracketAfterMatch ms cid teams) := by
  rw [updateBracketAfterMatch_eq ms cid teams c w h1 h2 h4]
  have hneg : ¬ (0 < c.round) := by omega
  rw [if_neg hneg, if_pos h3]
  simp only [List.nil_append]
  constructor
  · intro nextLB hfind
    constructor
    · intro hoddp
      have hodd : (c.round.natAbs % 2 == 1) = true := by simp [hoddp]
      simp only [losersAdvance, hfind, hodd, if_true]
      refine List.mem_cons_of_mem _ (List.mem_append_left _ ?_)
      simp
    · intro hevenp
      have hodd : (c.round.natAbs % 2 == 1) = false := by simp [hevenp]
      simp only [losersAdvance, hfind, hodd]
      refine List.mem_cons_of_mem _ (List.mem_append_left _ ?_)
      simp
  · intro gf hgf hnone
    have hfindnone : ms.find? (fun m => m.round == c.round - 1 &&
        m.match_number == c.match_number / 2) = none := by
      rcases hx : ms.find? (fun m => m.round == c.round - 1 &&
          m.match_number == c.match_number / 2) with _ | x
      · exact hx
      · exfalso
        have hmem := List.mem_of_find?_eq_some hx
        have hpred := List.find?_some hx
        simp only [Bool.and_eq_true, beq_iff_eq] at hpred
        have := List.any_eq_false.mp hnone x hmem
        simp [hpred.1] at this
    simp only [losersAdvance, hfindnone, hgf, hnone]
    refine List.mem_cons_of_mem _ (List.mem_append_left _ ?_)
    simp

/-- The completed losers-bracket match of `c4ms`. -/
def c4row : EventMatchRow :=
  { id := 1, event_id := 1, round := -1, match_number := 1, team1_id := some 10,
    team2_id := some 11, winner_id := some 10, loser_id := none, is_bye := false }

/-- Witness for the C4 amended theorem at `c4ms`. -/
theorem updateBracketAfterMatch_losers_routing_witness :
    (c4ms.find? (fun m => m.id == 1) = some c4row ∧ c4row.winner_id = some 10 ∧
      c4row.round < 0 ∧ ¬(loserOf c4row = none ∧ c4row.is_bye = true)) ∧
    ((∀ nextLB, c4ms.find? (fun m => m.round == c4row.round - 1 &&
          m.match_number == c4row.match_number / 2) = some nextLB →
        (c4row.round.natAbs % 2 = 1 →
          Mutation.update nextLB.id (pmTeam1 (some 10))
            ∈ updateBracketAfterMatch c4ms 1 []) ∧
        (c4row.round.natAbs % 2 = 0 →
          Mutation.update nextLB.id
              (if c4row.match_number % 2 == 0 then pmTeam1 (some 10) else pmTeam2 (some 10))
            ∈ updateBracketAfterMatch c4ms 1 [])) ∧
      (∀ gf, c4ms.find? (fun m => m.round == 0) = some gf →
        c4ms.any (fun m => m.round == c4row.round - 1) = false →
        Mutation.update gf.id (pmTeam2 (some 10)) ∈ updateBracketAfterMatch c4ms 1 [])) :=
  ⟨⟨by decide, by decide, by decide, by decide⟩,
    updateBracketAfterMatch_losers_routing c4ms 1 [] c4row 10
      (by decide) (by decide) (by decide) (by decide)⟩

/-! ## C5 — error handling of the progression engine -/

/-- A fully resolved Round-1 match (id 1, winner already advanced to match 2
and dropped to match 3) — the re-submission scenario. -/
def c5ms : List EventMatchRow :=
  [{ id := 1, event_id := 1, round := 1, match_number := 0, team1_id := some 10,
     team2_id := some 11, winner_id := some 10, loser_id := some 11, is_bye := false },
   { id := 2, event_id := 1, round := 2, match_number := 0, team1_id := some 10,
     team2_id := none, winner_id := none, loser_id := none, is_bye := false },
   { id := 3, event_id := 1, round := -1, match_number := 0, team1_id := some 11,
     team2_id := none, winner_id := none, loser_id := none, is_bye := false }]

/-- A match whose recorded winner (77) is neither `team1` (10) nor
`team2` (11). -/
def ambiguousRow : EventMatchRow :=
  { id := 5, event_id := 1, round := 0, match_number := 0, team1_id := some 10,
    team2_id := some 11, winner_id := some 77, loser_id := none, is_bye := false }

/-- C5 counterexample: (i) an unknown `completedMatchId` yields a normal empty
mutation list, not a `NotFound` failure; (ii) re-submitting the fully resolved
match 1 double-advances its winner — team 10, already in `team1` of match 2,
is placed again into `team2` of match 2 — instead of failing with
`InvalidState`; (iii) a winner that is neither team yields a normal return
whose loser is `team1`, not an `AmbiguousWinner` failure. -/
theorem updateBracketAfterMatch_error_claims_refuted :
    updateBracketAfterMatch c5ms 999 [] = [] ∧
    Mutation.update 2 (pmTeam2 (some 10)) ∈ updateBracketAfterMatch c5ms 1 [] ∧
    updateBracketAfterMatch [ambiguousRow] 5 [] =
      [Mutation.update 5 (pmLoser (some 10))] := by
  decide

/-- C5 amended: the engine raises no typed errors at all — whenever the match
is unknown or carries no winner it returns the empty mutation list. -/
theorem updateBracketAfterMatch_unknown_or_undecided_empty
    (ms : List EventMatchRow) (cid : Nat) (teams : List TeamWithPlayers)
    (h : ms.find? (fun m => m.id == cid) = none ∨
      ∃ c, ms.find? (fun m => m.id == cid) = some c ∧ c.winner_id = none) :
    updateBracketAfterMatch ms cid teams = [] := by
  unfold updateBracketAfterMatch
  rcases h with h | ⟨c, hc, hw⟩
  · rw [h]
  · rw [hc]
    simp only [hw]

/-- Witness for the C5 amended theorem: id 777 is unknown in `c5ms`. -/
theorem updateBracketAfterMatch_unknown_or_undecided_empty_witness :
    (c5ms.find? (fun m => m.id == 777) = none ∨
      ∃ c, c5ms.find? (fun m => m.id == 777) = some c ∧ c.winner_id = none) ∧
    updateBracketAfterMatch c5ms 777 [] = [] :=
  ⟨Or.inl (by decide),
    updateBracketAfterMatch_unknown_or_undecided_empty c5ms 777 [] (Or.inl (by decide))⟩

/-! ## C6 — winners-bracket forwarding -/

/-- Round 1 with 4 matches and Round 2 with 3 matches (as the builder creates
for 9 teams with a champion bye); the slot-3 match (id 4) is decided. -/
def c6ms : List EventMatchRow :=
  [{ id := 1, event_id := 1, round := 1, match_number := 0, team1_id := some 10,
     team2_id := some 11, winner_id := none, loser_id := none, is_bye := false },
   { id := 2, event_id := 1, round := 1, match_number := 1, team1_id := some 12,
     team2_id := some 13, winner_id := none, loser_id := none, is_bye := false },
   { id := 3, event_id := 1, round := 1, match_number := 2, team1_id := some 14,
     team2_id := some 15, winner_id := none, loser_id := none, is_bye := false },
   { id := 4, event_id := 1, round := 1, match_number := 3, team1_id := some 40,
     team2_id := some 41, winner_id := some 40, loser_id := none, is_bye := false },
   { id := 5, event_id := 1, round := 2, match_number := 0, team1_id := none,
     team2_id := none, winner_id := none, loser_id := none, is_bye := false },
   { id := 6, event_id := 1, round := 2, match_number := 1, team1_id := none,
     team2_id := none, winner_id := none, loser_id := none, is_bye := false },
   { id := 7, event_id := 1, round := 2, match_number := 2, team1_id := none,
     team2_id := none, winner_id := none, loser_id := none, is_bye := false }]

/-- C6 counterexample: for a Round-1 match at slot 3 with 4 Round-1 matches
and 3 Round-2 matches, the code forwards the winner to Round-2 slot
`⌊3·3/4⌋ = 2` (match id 7) — not to `⌊3/2⌋ = 1` (match id 6) as the claim
demands: no mutation touches match 6 at all. -/
theorem updateBracketAfterMatch_winners_slot_refuted :
    Mutation.update 7 (pmTeam1 (some 40)) ∈ updateBracketAfterMatch c6ms 4 [] ∧
    (updateBracketAfterMatch c6ms 4 []).all (fun u => match u with
      | Mutation.update i _ => !(i == 6)
      | Mutation.insert _ => true) = true := by
  decide

/-- C6 amended: a decided (non-bye) winners-bracket match forwards its winner
to the next round at slot `⌊slot · nextCount / currCount⌋` when it is a
Round-1 match and both round sizes are positive, and at `⌊slot / 2⌋`
otherwise; the winner fills `team1` if still empty, else `team2` if empty;
when the computed target match does not exist and a grand final does, the
winner becomes the grand final's `team1`. -/
theorem updateBracketAfterMatch_winners_forwarding (ms : List EventMatchRow)
    (cid : Nat) (teams : List TeamWithPlayers) (c : EventMatchRow) (w : Nat)
    (nmn : Nat)
    (h1 : ms.find? (fun m => m.id == cid) = some c)
    (h2 : c.winner_id = some w)
    (h3 : 0 < c.round)
    (h4 : ¬(loserOf c = none ∧ c.is_bye = true))
    (hn : nmn = if c.round == 1
        && decide (0 < (ms.filter (fun m => m.round == c.round)).length)
        && decide (0 < (ms.filter (fun m => m.round == c.round + 1)).length)
      then c.match_number * (ms.filter (fun m => m.round == c.round + 1)).length
            / (ms.filter (fun m => m.round == c.round)).length
      else c.match_number / 2) :
    (∀ next, ms.find? (fun m => m.round == c.round + 1 && m.match_number == nmn)
          = some next →
        (next.team1_id = none →
          Mutation.update next.id (pmTeam1 (some w)) ∈ updateBracketAfterMatch ms cid teams) ∧
        (next.team1_id ≠ none → next.team2_id = none →
          Mutation.update next.id (pmTeam2 (some w)) ∈ updateBracketAfterMatch ms cid teams)) ∧
    (ms.find? (fun m => m.round == c.round + 1 && m.match_number == nmn) = none →
      ∀ gf, ms.find? (fun m => m.round == 0) = some gf →
        Mutation.update gf.id (pmTeam1 (some w)) ∈ updateBracketAfterMatch ms cid teams) := by
  subst hn
  rw [updateBracketAfterMatch_eq ms cid teams c w h1 h2 h4]
  have hneg : ¬ (c.round < 0) := by omega
  rw [if_pos h3, if_neg hneg]
  simp only [List.append_nil, List.nil_append]
  constructor
  · intro next hfind
    constructor
    · intro ht1
      simp only [winnersForward, hfind, ht1, Option.isNone_none, if_true]
      refine List.mem_cons_of_mem _ (List.mem_append_left _ (List.mem_append_left _ ?_))
      simp
    · intro ht1 ht2
      have ht1' : next.team1_id.isNone = false := by
        rcases hx : next.team1_id with _ | v
        · exact absurd hx ht1
        · simp [hx]
      simp only [winnersForward, hfind, ht1', ht2, Option.isNone_none, Bool.false_eq_true,
        if_false, if_true]
      refine List.mem_cons_of_mem _ (List.mem_append_left _ (List.mem_append_left _ ?_))
      simp
  · intro hnone gf hgf
    simp only [winnersForward, hnone, hgf]
    refine List.mem_cons_of_mem _ (List.mem_append_left _ (List.mem_append_left _ ?_))
    simp

/-- A decided Round-1 match feeding an empty Round-2 match. -/
def w6row : EventMatchRow :=
  { id := 1, event_id := 1, round := 1, match_number := 0, team1_id := some 10,
    team2_id := some 11, winner_id := some 10, loser_id := none, is_bye := false }

/-- Collection for the C6 witness. -/
def w6ms : List EventMatchRow :=
  [w6row,
   { id := 2, event_id := 1, round := 2, match_number := 0, team1_id := none,
     team2_id := none, winner_id := none, loser_id := none, is_bye := false }]

/-- Witness for the C6 amended theorem at `w6ms` (target slot 0). -/
theorem updateBracketAfterMatch_winners_forwarding_witness :
    (w6ms.find? (fun m => m.id == 1) = some w6row ∧ w6row.winner_id = some 10 ∧
      0 < w6row.round ∧ ¬(loserOf w6row = none ∧ w6row.is_bye = true) ∧
      0 = if w6row.round == 1
          && decide (0 < (w6ms.filter (fun m => m.round == w6row.round)).length)
          && decide (0 < (w6ms.filter (fun m => m.round == w6row.round + 1)).length)
        then w6row.match_number * (w6ms.filter (fun m => m.round == w6row.round + 1)).length
              / (w6ms.filter (fun m => m.round == w6row.round)).length
        else w6row.match_number / 2) ∧
    ((∀ next, w6ms.find? (fun m => m.round == w6row.round + 1 && m.match_number == 0)
          = some next →
        (next.team1_id = none →
          Mutation.update next.id (pmTeam1 (some 10)) ∈ updateBracketAfterMatch w6ms 1 []) ∧
        (next.team1_id ≠ none → next.team2_id = none →
          Mutation.update next.id (pmTeam2 (some 10)) ∈ updateBracketAfterMatch w6ms 1 [])) ∧
      (w6ms.find? (fun m => m.round == w6row.round + 1 && m.match_number == 0) = none →
        ∀ gf, w6ms.find? (fun m => m.round == 0) = some gf →
          Mutation.update gf.id (pmTeam1 (some 10)) ∈ updateBracketAfterMatch w6ms 1 [])) :=
  ⟨⟨by decide, by decide, by decide, by decide, by decide⟩,
    updateBracketAfterMatch_winners_forwarding w6ms 1 [] w6row 10 0
      (by decide) (by decide) (by decide) (by decide) (by decide)⟩

/-! ## C7 — dropping the loser into the losers bracket -/

/-- A decided Round-1 match at slot 0 whose losers-bracket target `(−1, 0)`
already exists with `team1` occupied and `team2` empty. -/
def c7ms : List EventMatchRow :=
  [{ id := 1, event_id := 1, round := 1, match_number := 0, team1_id := some 10,
     team2_id := some 11, winner_id := some 10, loser_id := none, is_bye := false },
   { id := 2, event_id := 1, round := -1, match_number := 0, team1_id := some 99,
     team2_id := none, winner_id := none, loser_id := none, is_bye := false }]

/-- C7 counterexample: the originating slot is even, so the code only
considers the parity slot `team1`; since `team1` of the existing losers match
is occupied it emits *no* placement at all — the empty `team2` slot is not
filled, contrary to the claim's "if it exists the empty slot is filled". -/
theorem updateBracketAfterMatch_loser_fill_refuted :
    updateBracketAfterMatch c7ms 1 [] = [Mutation.update 1 (pmLoser (some 11))] ∧
    (updateBracketAfterMatch c7ms 1 []).all (fun u => match u with
      | Mutation.update i _ => !(i == 2)
      | Mutation.insert _ => true) = true := by
  decide

/-- C7 amended: the loser of a winners-bracket match at round r drops to
losers round −1 (r = 1), −4 (r = 2) or −(2r − 2) (r ≥ 3); if the target match
is missing it is created with the loser in the parity slot (`team1` for an
even originating slot, `team2` for odd); if it exists, only the parity slot is
considered, and it is filled just when it is still empty. -/
theorem updateBracketAfterMatch_loser_drop (ms : List EventMatchRow)
    (cid : Nat) (teams : List TeamWithPlayers) (c : EventMatchRow) (w : Nat)
    (lbRound : Int) (lbNum : Nat)
    (h1 : ms.find? (fun m => m.id == cid) = some c)
    (h2 : c.winner_id = some w)
    (h3 : 0 < c.round)
    (h4 : ¬(loserOf c = none ∧ c.is_bye = true))
    (hlr : lbRound = if c.round == 1 then -1 else if c.round == 2 then -4
      else -(2 * c.round - 2))
    (hln : lbNum = if c.round == 2 then 0 else c.match_number / 2) :
    (ms.find? (fun m => m.round == lbRound && m.match_number == lbNum) = none →
      Mutation.insert
          { event_id := c.event_id, round := lbRound, match_number := lbNum,
            team1_id := if c.match_number % 2 == 0 then loserOf c else none,
            team2_id := if c.match_number % 2 == 0 then none else loserOf c,
            winner_id := none, loser_id := none, is_bye := false }
        ∈ updateBracketAfterMatch ms cid teams) ∧
    (∀ lb, ms.find? (fun m => m.round == lbRound && m.match_number == lbNum) = some lb →
      (c.match_number % 2 == 0) = true → lb.team1_id = none →
      Mutation.update lb.id (pmTeam1 (loserOf c)) ∈ updateBracketAfterMatch ms cid teams) ∧
    (∀ lb, ms.find? (fun m => m.round == lbRound && m.match_number == lbNum) = some lb →
      (c.match_number % 2 == 0) = false → lb.team2_id = none →
      Mutation.update lb.id (pmTeam2 (loserOf c)) ∈ updateBracketAfterMatch ms cid teams) := by
  subst hlr hln
  rw [updateBracketAfterMatch_eq ms cid teams c w h1 h2 h4]
  have hneg : ¬ (c.round < 0) := by omega
  rw [if_pos h3, if_neg hneg]
  simp only [List.append_nil, List.nil_append]
  refine ⟨?_, ?_, ?_⟩
  · intro hnone
    simp only [losersDrop, hnone]
    refine List.mem_cons_of_mem _ (List.mem_append_left _ (List.mem_append_right _ ?_))
    simp
  · intro lb hfind hpt ht1
    simp only [losersDrop, hfind, hpt, ht1, Option.isNone_none, Bool.true_and, if_true]
    refine List.mem_cons_of_mem _ (List.mem_append_left _ (List.mem_append_right _ ?_))
    simp
  · intro lb hfind hpt ht2
    simp only [losersDrop, hfind, hpt, ht2, Option.isNone_none, Bool.false_and,
      Bool.not_false, Bool.true_and, Bool.false_eq_true, if_false, if_true]
    refine List.mem_cons_of_mem _ (List.mem_append_left _ (List.mem_append_right _ ?_))
    simp

/-- Witness for the C7 amended theorem: a lone decided Round-1 match, so the
losers target `(−1, 0)` is missing and lazily scaffolded. -/
theorem updateBracketAfterMatch_loser_drop_witness :
    ([w6row].find? (fun m => m.id == 1) = some w6row ∧ w6row.winner_id = some 10 ∧
      0 < w6row.round ∧ ¬(loserOf w6row = none ∧ w6row.is_bye = true) ∧
      (-1 : Int) = (if w6row.round == 1 then -1 else if w6row.round == 2 then -4
        else -(2 * w6row.round - 2)) ∧
      0 = if w6row.round == 2 then 0 else w6row.match_number / 2) ∧
    (([w6row].find? (fun m => m.round == (-1 : Int) && m.match_number == 0) = none →
      Mutation.insert
          { event_id := w6row.event_id, round := (-1 : Int), match_number := 0,
            team1_id := if w6row.match_number % 2 == 0 then loserOf w6row else none,
            team2_id := if w6row.match_number % 2 == 0 then none else loserOf w6row,
            winner_id := none, loser_id := none, is_bye := false }
        ∈ updateBracketAfterMatch [w6row] 1 []) ∧
    (∀ lb, [w6row].find? (fun m => m.round == (-1 : Int) && m.match_number == 0) = some lb →
      (w6row.match_number % 2 == 0) = true → lb.team1_id = none →
      Mutation.update lb.id (pmTeam1 (loserOf w6row)) ∈ updateBracketAfterMatch [w6row] 1 []) ∧
    (∀ lb, [w6row].find? (fun m => m.round == (-1 : Int) && m.match_number == 0) = some lb →
      (w6row.match_number % 2 == 0) = false → lb.team2_id = none →
      Mutation.update lb.id (pmTeam2 (loserOf w6row)) ∈ updateBracketAfterMatch [w6row] 1 [])) :=
  ⟨⟨by decide, by decide, by decide, by decide, by decide, by decide⟩,
    updateBracketAfterMatch_loser_drop [w6row] 1 [] w6row 10 (-1) 0
      (by decide) (by decide) (by decide) (by decide) (by decide) (by decide)⟩

/-! ## C8 — the bye sweep never advances the champion -/

/-- Membership characterization of the bye sweep's output: every mutation
comes from a pending, non-skipped match — either its bye resolution or one of
its forwarding updates. -/
theorem mem_autoAdvanceWinnersByes {matchList : List EventMatchRow}
    {teams : List TeamWithPlayers} {u : Mutation}
    (hu : u ∈ autoAdvanceWinnersByes matchList teams) :
    ∃ m ∈ sweepPending matchList, sweepSkip (sweepChampionId teams) m = false ∧
      (u = Mutation.update m.id (pmResolve (sweepWinner m)) ∨
        u ∈ sweepForward matchList m (sweepWinner m)) := by
  unfold autoAdvanceWinnersByes at hu
  have aux : ∀ (pending : List EventMatchRow) (acc : List Mutation),
      u ∈ pending.foldl (fun updates m =>
        if sweepSkip (sweepChampionId teams) m then updates
        else updates ++ [Mutation.update m.id (pmResolve (sweepWinner m))]
          ++ sweepForward matchList m (sweepWinner m)) acc →
      u ∈ acc ∨ ∃ m ∈ pending, sweepSkip (sweepChampionId teams) m = false ∧
        (u = Mutation.update m.id (pmResolve (sweepWinner m)) ∨
          u ∈ sweepForward matchList m (sweepWinner m)) := by
    intro pending
    induction pending with
    | nil => intro acc h; exact Or.inl h
    | cons p ps ih =>
      intro acc h
      simp only [List.foldl_cons] at h
      rcases ih _ h with hacc | ⟨m, hm, hsk, hcase⟩
      · by_cases hskp : sweepSkip (sweepChampionId teams) p = true
        · rw [if_pos hskp] at hacc
          exact Or.inl hacc
        · rw [if_neg hskp] at hacc
          rcases List.mem_append.mp hacc with hacc | hfwd
          · rcases List.mem_append.mp hacc with hacc | hres
            · exact Or.inl hacc
            · refine Or.inr ⟨p, List.mem_cons_self p ps, by simpa using hskp, Or.inl ?_⟩
              simpa using hres
          · exact Or.inr ⟨p, List.mem_cons_self p ps, by simpa using hskp, Or.inr hfwd⟩
      · exact Or.inr ⟨m, List.mem_cons_of_mem p hm, hsk, hcase⟩
  rcases aux _ _ hu with h | h
  · simp at h
  · exact h

/-- Mutations produced by the sweep's forwarding step only set a team slot. -/
theorem sweepForward_fields {matchList : List EventMatchRow} {m : EventMatchRow}
    {w : Nat} {u : Mutation} (hu : u ∈ sweepForward matchList m w) :
    ∃ i, u = Mutation.update i (pmTeam1 (some w)) ∨ u = Mutation.update i (pmTeam2 (some w)) := by
  unfold sweepForward at hu
  rcases hfind : matchList.find? (fun n =>
      n.round == m.round + 1 && n.match_number == m.match_number / 2) with _ | next
  · simp only [hfind] at hu
    rcases hgf : matchList.find? (fun n => n.round == 0) with _ | gf
    · simp only [hgf] at hu
      simp at hu
    · simp only [hgf, List.mem_singleton] at hu
      exact ⟨gf.id, Or.inl hu⟩
  · simp only [hfind] at hu
    by_cases h1 : next.team1_id.isNone = true
    · simp only [h1, if_true, List.mem_singleton] at hu
      exact ⟨next.id, Or.inl hu⟩
    · simp only [h1, Bool.false_eq_true, if_false] at hu
      by_cases h2 : next.team2_id.isNone = true
      · simp only [h2, if_true, List.mem_singleton] at hu
        exact ⟨next.id, Or.inr hu⟩
      · simp only [h2, Bool.false_eq_true, if_false] at hu
        simp at hu

/-- Members of a list with distinct `f`-images are equal when their images
are. -/
theorem eq_of_map_nodup {f : α → β} :
    ∀ {l : List α}, (l.map f).Nodup → ∀ {a b : α}, a ∈ l → b ∈ l → f a = f b → a = b := by
  intro l
  induction l with
  | nil => intro _ a b ha; simp at ha
  | cons x xs ih =>
    intro hnd a b ha hb hf
    simp only [List.map_cons, List.nodup_cons] at hnd
    rcases List.mem_cons.mp ha with ha1 | ha2
    · rcases List.mem_cons.mp hb with hb1 | hb2
      · rw [ha1, hb1]
      · subst ha1
        exact absurd (hf ▸ List.mem_map_of_mem f hb2) hnd.1
    · rcases List.mem_cons.mp hb with hb1 | hb2
      · subst hb1
        exact absurd (hf ▸ List.mem_map_of_mem f ha2) hnd.1
      · exact ih hnd.2 ha2 hb2 hf

/-- A pending match that passes the champion guard cannot have the champion
as its auto-advance winner: the winner is one of its occupied slots, all of
which the guard checked. -/
theorem sweepWinner_ne_of_not_skip {matchList : List EventMatchRow}
    {cid : Nat} {m : EventMatchRow}
    (hm : m ∈ sweepPending matchList)
    (hskip : sweepSkip (some cid) m = false) :
    sweepWinner m ≠ cid := by
  unfold sweepPending at hm
  have hpred := (List.mem_filter.mp hm).2
  simp only [Bool.and_eq_true, Bool.or_eq_true] at hpred
  unfold sweepSkip at hskip
  rcases Bool.or_eq_false_iff.mp hskip with ⟨hs1, hs2⟩
  unfold sweepWinner
  rcases ht1 : m.team1_id with _ | w
  · have ht2 : m.team2_id.isSome = true := by
      rcases hpred.2 with ⟨h1, _⟩ | ⟨_, h2⟩
      · rw [ht1] at h1
        simp at h1
      · exact h2
    rcases ht2' : m.team2_id with _ | w2
    · rw [ht2'] at ht2
      simp at ht2
    · intro h
      rw [ht2'] at hs2
      simp only [Option.getD_some] at h
      subst h
      simp at hs2
  · intro h
    subst h
    rw [ht1] at hs1
    simp at hs1

/-- C8: the bye sweep never resolves (sets `winner_id`/`is_bye` on) a match
containing the reigning champion, and it never forwards the champion either:
every mutation it emits is a partial update that carries the champion's id
in none of its fields — the champion can only advance through an explicitly
recorded result processed outside the sweep. -/
theorem autoAdvanceWinnersByes_champion_protected
    (matchList : List EventMatchRow) (teams : List TeamWithPlayers)
    (champ : TeamWithPlayers)
    (hch : teams.find? (fun t => t.is_reigning_champion) = some champ)
    (hnd : (matchList.map (fun m => m.id)).Nodup) :
    (∀ m ∈ matchList, (m.team1_id = some champ.id ∨ m.team2_id = some champ.id) →
      ∀ pf, Mutation.update m.id pf ∈ autoAdvanceWinnersByes matchList teams →
        pf.winner_id = none ∧ pf.is_bye = none) ∧
    (∀ u ∈ autoAdvanceWinnersByes matchList teams,
      ∃ i pf, u = Mutation.update i pf ∧
        pf.team1_id ≠ some (some champ.id) ∧
        pf.team2_id ≠ some (some champ.id) ∧
        pf.winner_id ≠ some (some champ.id)) := by
  have hchampid : sweepChampionId teams = some champ.id := by
    unfold sweepChampionId
    rw [hch]
    rfl
  constructor
  · intro m hm hcontains pf hupd
    rcases mem_autoAdvanceWinnersByes hupd with ⟨m', hm', hskip, hcase⟩
    rcases hcase with hres | hfwd
    · -- the resolution case would require `m` itself to be pending and
      -- non-skipped, impossible for a champion match
      exfalso
      have hm'mem : m' ∈ matchList := List.mem_of_mem_filter hm'
      injection hres with hid hpf
      have : m = m' := eq_of_map_nodup hnd hm hm'mem hid
      subst this
      rw [hchampid] at hskip
      unfold sweepSkip at hskip
      rcases hcontains with hc | hc <;> simp [hc] at hskip
    · rcases sweepForward_fields hfwd with ⟨i, hu | hu⟩
      · injection hu with _ hpf
        subst hpf
        exact ⟨rfl, rfl⟩
      · injection hu with _ hpf
        subst hpf
        exact ⟨rfl, rfl⟩
  · intro u hu
    rcases mem_autoAdvanceWinnersByes hu with ⟨m', hm', hskip, hcase⟩
    rw [hchampid] at hskip
    have hwne : sweepWinner m' ≠ champ.id := sweepWinner_ne_of_not_skip hm' hskip
    rcases hcase with rfl | hfwd
    · refine ⟨m'.id, pmResolve (sweepWinner m'), rfl, ?_, ?_, ?_⟩
      · simp [pmResolve, pmEmpty]
      · simp [pmResolve, pmEmpty]
      · simp only [pmResolve, pmEmpty]
        intro h
        injection h with h
        injection h with h
        exact hwne h
    · rcases sweepForward_fields hfwd with ⟨i, rfl | rfl⟩
      · refine ⟨i, pmTeam1 (some (sweepWinner m')), rfl, ?_, ?_, ?_⟩
        · simp only [pmTeam1, pmEmpty]
          intro h
          injection h with h
          injection h with h
          exact hwne h
        · simp [pmTeam1, pmEmpty]
        · simp [pmTeam1, pmEmpty]
      · refine ⟨i, pmTeam2 (some (sweepWinner m')), rfl, ?_, ?_, ?_⟩
        · simp [pmTeam2, pmEmpty]
        · simp only [pmTeam2, pmEmpty]
          intro h
          injection h with h
          injection h with h
          exact hwne h
        · simp [pmTeam2, pmEmpty]

/-- One reigning champion team (id 1). -/
def champTeams : List TeamWithPlayers := [⟨1, 1, 1, 2, true⟩]

/-- Two pending one-slot matches: match 1 holds the champion, match 2 a
regular team. -/
def champMs : List EventMatchRow :=
  [{ id := 1, event_id := 1, round := 1, match_number := 0, team1_id := some 1,
     team2_id := none, winner_id := none, loser_id := none, is_bye := false },
   { id := 2, event_id := 1, round := 1, match_number := 1, team1_id := some 5,
     team2_id := none, winner_id := none, loser_id := none, is_bye := false }]

/-- Witness for C8 at `champMs`/`champTeams`. -/
theorem autoAdvanceWinnersByes_champion_protected_witness :
    (champTeams.find? (fun t => t.is_reigning_champion) = some ⟨1, 1, 1, 2, true⟩ ∧
      (champMs.map (fun m => m.id)).Nodup) ∧
    ((∀ m ∈ champMs, (m.team1_id = some 1 ∨ m.team2_id = some 1) →
        ∀ pf, Mutation.update m.id pf ∈ autoAdvanceWinnersByes champMs champTeams →
          pf.winner_id = none ∧ pf.is_bye = none) ∧
      (∀ u ∈ autoAdvanceWinnersByes champMs champTeams,
        ∃ i pf, u = Mutation.update i pf ∧
          pf.team1_id ≠ some (some 1) ∧
          pf.team2_id ≠ some (some 1) ∧
          pf.winner_id ≠ some (some 1))) :=
  ⟨⟨by decide, by decide⟩,
    autoAdvanceWinnersByes_champion_protected champMs champTeams ⟨1, 1, 1, 2, true⟩
      (by decide) (by decide)⟩

/-! ## C9 — the loss-tracking facade's `recordMatchResult` -/

theorem applyLoss_teamId (t : TLTeam) : (applyLoss t).teamId = t.teamId := by
  simp only [applyLoss]
  split <;> rfl

theorem applyLoss_losses (t : TLTeam) : (applyLoss t).losses = t.losses + 1 := by
  simp only [applyLoss]
  split <;> rfl

theorem applyLoss_status (t : TLTeam) :
    (applyLoss t).status = if t.losses + 1 = 2 then TStatus.eliminated else t.status := by
  simp only [applyLoss]
  by_cases h : t.losses + 1 = 2
  · have hb : (t.losses + 1 == 2) = true := by simpa using h
    simp [hb, h]
  · have hb : (t.losses + 1 == 2) = false := by simpa using h
    simp [hb, h]

/-- `find?` by key after updating the first element of that key finds its
image, provided the update preserves the key. -/
theorem find?_updateFirst_self {β : Type} [BEq β] (key : α → β) (k : β) (f : α → α)
    (hkey : ∀ x, key (f x) = key x) :
    ∀ {l : List α} {t : α}, l.find? (fun x => key x == k) = some t →
      (updateFirst (fun x => key x == k) f l).find? (fun x => key x == k) = some (f t) := by
  intro l
  induction l with
  | nil => intro t h; simp at h
  | cons a as ih =>
    intro t h
    by_cases hp : (key a == k) = true
    · simp only [List.find?, hp] at h
      injection h with h
      subst h
      rw [updateFirst, if_pos hp]
      have hf : (key (f a) == k) = true := by rw [hkey]; exact hp
      simp only [List.find?, hf]
    · have hp2 : (key a == k) = false := by simpa using hp
      simp only [List.find?, hp2] at h
      rw [updateFirst, if_neg hp]
      simp only [List.find?, hp2]
      exact ih h

/-- `find?` by one key is untouched by updating the first element of a
*different* key, provided the update preserves keys. -/
theorem find?_updateFirst_ne {β : Type} [BEq β] [LawfulBEq β] (key : α → β)
    (k k' : β) (f : α → α) (hkey : ∀ x, key (f x) = key x) (hne : k ≠ k') :
    ∀ l : List α,
      (updateFirst (fun x => key x == k) f l).find? (fun x => key x == k')
        = l.find? (fun x => key x == k') := by
  intro l
  induction l with
  | nil => rfl
  | cons a as ih =>
    by_cases hp : (key a == k) = true
    · rw [updateFirst, if_pos hp]
      have hk : key a = k := by simpa using hp
      have hk' : (key a == k') = false := by
        simp [hk]
        exact hne
      have hkf : (key (f a) == k') = false := by rw [hkey]; exact hk'
      simp only [List.find?, hkf, hk']
    · rw [updateFirst, if_neg hp]
      by_cases hq : (key a == k') = true
      · simp only [List.find?, hq]
      · have hq2 : (key a == k') = false := by simpa using hq
        simp only [List.find?, hq2]
        exact ih

/-- `find?` by key through an arbitrary `updateFirst` whose function preserves
keys: the found element is the original or its image. -/
theorem find?_updateFirst_general {β : Type} [BEq β] (key : α → β) (k : β)
    (p : α → Bool) (f : α → α) (hkey : ∀ x, key (f x) = key x) :
    ∀ {l : List α} {t : α}, l.find? (fun x => key x == k) = some t →
      ∃ t', (updateFirst p f l).find? (fun x => key x == k) = some t' ∧
        (t' = t ∨ (t' = f t ∧ p t = true)) := by
  intro l
  induction l with
  | nil => intro t h; simp at h
  | cons a as ih =>
    intro t h
    by_cases hfound : (key a == k) = true
    · simp only [List.find?, hfound] at h
      injection h with h
      subst h
      by_cases hp : p a = true
      · refine ⟨f a, ?_, Or.inr ⟨rfl, hp⟩⟩
        rw [updateFirst, if_pos hp]
        have hf : (key (f a) == k) = true := by rw [hkey]; exact hfound
        simp only [List.find?, hf]
      · refine ⟨a, ?_, Or.inl rfl⟩
        rw [updateFirst, if_neg hp]
        simp only [List.find?, hfound]
    · have hfound2 : (key a == k) = false := by simpa using hfound
      simp only [List.find?, hfound2] at h
      by_cases hp : p a = true
      · refine ⟨t, ?_, Or.inl rfl⟩
        rw [updateFirst, if_pos hp]
        have hf : (key (f a) == k) = false := by rw [hkey]; exact hfound2
        simp only [List.find?, hf]
        exact h
      · rcases ih h with ⟨t', ht', hcase⟩
        refine ⟨t', ?_, hcase⟩
        rw [updateFirst, if_neg hp]
        simp only [List.find?, hfound2]
        exact ht'

/-- Filtering by `p` itself is count-preserving under `updateFirst p f` when
`f` keeps `p` true. -/
theorem length_filter_updateFirst_self {p : α → Bool} {f : α → α}
    (h : ∀ x, p x = true → p (f x) = true) :
    ∀ l : List α, ((updateFirst p f l).filter p).length = (l.filter p).length := by
  intro l
  induction l with
  | nil => rfl
  | cons a as ih =>
    by_cases hp : p a = true
    · rw [updateFirst, if_pos hp]
      simp only [List.filter, hp, h a hp, List.length_cons, ih]
    · have hp2 : p a = false := by simpa using hp
      rw [updateFirst, if_neg hp]
      simp only [List.filter, hp2]
      exact ih

/-- When exactly one element satisfies `p`, updating the first `p`-element
replaces precisely that element in the `p`-filtered view. -/
theorem filter_updateFirst_singleton {p : α → Bool} {f : α → α}
    (hpres : ∀ y, p y = true → p (f y) = true) :
    ∀ (l : List α) (x : α), l.filter p = [x] →
      (updateFirst p f l).filter p = [f x] := by
  intro l
  induction l with
  | nil => intro x h; simp at h
  | cons a as ih =>
    intro x h
    by_cases hp : p a = true
    · simp only [List.filter, hp] at h
      injection h with h1 h2
      subst h1
      rw [updateFirst, if_pos hp]
      simp only [List.filter, hpres a hp, h2]
    · have hp2 : p a = false := by simpa using hp
      simp only [List.filter, hp2] at h
      rw [updateFirst, if_neg hp]
      simp only [List.filter, hp2]
      exact ih x h

/-- C9: `recordMatchResult` adds exactly one loss to the loser, eliminates it
exactly when the new count is 2, leaves the winner's losses unchanged, and —
exactly when a single active team remains — crowns that sole remaining active
team (`active[0]`) as champion. -/
theorem recordMatchResult_spec
    (ts ts' : List TLTeam) (mid wid lid : String) (tw tl : TLTeam)
    (hne : wid ≠ lid)
    (hw : ts.find? (fun t => t.teamId == wid) = some tw)
    (hl : ts.find? (fun t => t.teamId == lid) = some tl)
    (hla : tl.status = TStatus.active)
    (hres : recordMatchResult ts mid wid lid = some ts') :
    (∃ tl', ts'.find? (fun t => t.teamId == lid) = some tl' ∧
      tl'.losses = tl.losses + 1 ∧
      (tl'.status = TStatus.eliminated ↔ tl.losses + 1 = 2)) ∧
    (∃ tw', ts'.find? (fun t => t.teamId == wid) = some tw' ∧ tw'.losses = tw.losses) ∧
    ((getActiveTeams ts').length = 1 →
      ∃ t, getActiveTeams ts' = [t] ∧ t.status = TStatus.champion ∧ t ∈ ts') ∧
    ((getActiveTeams ts').length ≠ 1 → (∀ t ∈ ts, t.status ≠ TStatus.champion) →
      ∀ t ∈ ts', t.status ≠ TStatus.champion) := by
  unfold recordMatchResult at hres
  simp only [hw, hl] at hres
  injection hres with hres
  subst hres
  set s1 := updateFirst (fun t => t.teamId == lid) applyLoss ts with hs1
  set s2 := updateFirst (fun t => t.teamId == wid)
    (pushHistory ⟨mid, "W", tl.teamName⟩) s1 with hs2
  set s3 := updateFirst (fun t => t.teamId == lid)
    (pushHistory ⟨mid, "L", tw.teamName⟩) s2 with hs3
  -- chase the loser and winner records through the three updates
  have hf1 : s1.find? (fun t => t.teamId == lid) = some (applyLoss tl) := by
    rw [hs1]
    exact find?_updateFirst_self (fun t : TLTeam => t.teamId) lid applyLoss
      applyLoss_teamId hl
  have hf2 : s2.find? (fun t => t.teamId == lid) = some (applyLoss tl) := by
    rw [hs2]
    exact (find?_updateFirst_ne (fun t : TLTeam => t.teamId) wid lid
      (pushHistory ⟨mid, "W", tl.teamName⟩) (fun _ => rfl) hne s1).trans hf1
  have hf3 : s3.find? (fun t => t.teamId == lid)
      = some (pushHistory ⟨mid, "L", tw.teamName⟩ (applyLoss tl)) := by
    rw [hs3]
    exact find?_updateFirst_self (fun t : TLTeam => t.teamId) lid
      (pushHistory ⟨mid, "L", tw.teamName⟩) (fun _ => rfl) hf2
  have hg1 : s1.find? (fun t => t.teamId == wid) = some tw := by
    rw [hs1]
    exact (find?_updateFirst_ne (fun t : TLTeam => t.teamId) lid wid applyLoss
      applyLoss_teamId (Ne.symm hne) ts).trans hw
  have hg2 : s2.find? (fun t => t.teamId == wid)
      = some (pushHistory ⟨mid, "W", tl.teamName⟩ tw) := by
    rw [hs2]
    exact find?_updateFirst_self (fun t : TLTeam => t.teamId) wid
      (pushHistory ⟨mid, "W", tl.teamName⟩) (fun _ => rfl) hg1
  have hg3 : s3.find? (fun t => t.teamId == wid)
      = some (pushHistory ⟨mid, "W", tl.teamName⟩ tw) := by
    rw [hs3]
    exact (find?_updateFirst_ne (fun t : TLTeam => t.teamId) lid wid
      (pushHistory ⟨mid, "L", tw.teamName⟩) (fun _ => rfl) (Ne.symm hne) s2).trans hg2
  -- facts about the loser's new record
  have hXlosses : (pushHistory ⟨mid, "L", tw.teamName⟩ (applyLoss tl)).losses
      = tl.losses + 1 := applyLoss_losses tl
  have hXstatus : (pushHistory ⟨mid, "L", tw.teamName⟩ (applyLoss tl)).status
      = if tl.losses + 1 = 2 then TStatus.eliminated else tl.status := applyLoss_status tl
  have hstatus_iff : ∀ t' : TLTeam,
      t' = pushHistory ⟨mid, "L", tw.teamName⟩ (applyLoss tl) ∨
        (t' = { pushHistory ⟨mid, "L", tw.teamName⟩ (applyLoss tl) with
                status := TStatus.champion } ∧
          ((pushHistory ⟨mid, "L", tw.teamName⟩ (applyLoss tl)).status
              != TStatus.eliminated
            && decide ((pushHistory ⟨mid, "L", tw.teamName⟩ (applyLoss tl)).losses < 2))
            = true) →
      t'.losses = tl.losses + 1 ∧
        (t'.status = TStatus.eliminated ↔ tl.losses + 1 = 2) := by
    intro t' hcase
    by_cases h2 : tl.losses + 1 = 2
    · rw [if_pos h2] at hXstatus
      rcases hcase with rfl | ⟨rfl, hact⟩
      · exact ⟨hXlosses, by simp [hXstatus, h2]⟩
      · rw [hXstatus] at hact
        simp at hact
    · rw [if_neg h2] at hXstatus
      rcases hcase with rfl | ⟨rfl, _⟩
      · refine ⟨hXlosses, ?_⟩
        rw [hXstatus, hla]
        simp [h2]
      · refine ⟨hXlosses, ?_⟩
        simp [h2]
  have hchamp_pres : ∀ x : TLTeam,
      (x.status != TStatus.eliminated && decide (x.losses < 2)) = true →
      (({ x with status := TStatus.champion } : TLTeam).status != TStatus.eliminated
        && decide (({ x with status := TStatus.champion } : TLTeam).losses < 2)) = true := by
    intro x hx
    simp only [Bool.and_eq_true] at hx ⊢
    exact ⟨by simp, hx.2⟩
  -- statuses never become `champion` before the final step
  have mem_s1 : ∀ t ∈ s1, ∃ t0 ∈ ts,
      (t.status = t0.status ∨ t.status = TStatus.eliminated) := by
    intro t ht
    rw [hs1] at ht
    rcases mem_updateFirst ht with h | ⟨x, hx, _, rfl⟩
    · exact ⟨t, h, Or.inl rfl⟩
    · refine ⟨x, hx, ?_⟩
      rw [applyLoss_status]
      by_cases h2 : x.losses + 1 = 2
      · rw [if_pos h2]
        exact Or.inr rfl
      · rw [if_neg h2]
        exact Or.inl rfl
  have mem_s2 : ∀ t ∈ s2, ∃ t0 ∈ ts,
      (t.status = t0.status ∨ t.status = TStatus.eliminated) := by
    intro t ht
    rw [hs2] at ht
    rcases mem_updateFirst ht with h | ⟨x, hx, _, rfl⟩
    · exact mem_s1 t h
    · exact mem_s1 x hx
  have mem_s3 : ∀ t ∈ s3, ∃ t0 ∈ ts,
      (t.status = t0.status ∨ t.status = TStatus.eliminated) := by
    intro t ht
    rw [hs3] at ht
    rcases mem_updateFirst ht with h | ⟨x, hx, _, rfl⟩
    · exact mem_s2 t h
    · exact mem_s2 x hx
  by_cases hcond : ((getActiveTeams s3).length == 1) = true
  · rw [if_pos hcond]
    have hcnt3 : (getActiveTeams s3).length = 1 := by simpa using hcond
    refine ⟨?_, ?_, ?_, ?_⟩
    · rcases find?_updateFirst_general (fun t : TLTeam => t.teamId) lid
        (fun t => t.status != TStatus.eliminated && decide (t.losses < 2))
        (fun x : TLTeam => { x with status := TStatus.champion }) (fun _ => rfl) hf3
        with ⟨t', ht', hcase⟩
      exact ⟨t', ht', hstatus_iff t' hcase⟩
    · rcases find?_updateFirst_general (fun t : TLTeam => t.teamId) wid
        (fun t => t.status != TStatus.eliminated && decide (t.losses < 2))
        (fun x : TLTeam => { x with status := TStatus.champion }) (fun _ => rfl) hg3
        with ⟨t', ht', hcase⟩
      refine ⟨t', ht', ?_⟩
      rcases hcase with rfl | ⟨rfl, _⟩ <;> rfl
    · intro _
      rcases List.length_eq_one.mp hcnt3 with ⟨x, hx⟩
      unfold getActiveTeams at hx
      have hx' := @filter_updateFirst_singleton TLTeam
        (fun t => t.status != TStatus.eliminated && decide (t.losses < 2))
        (fun x : TLTeam => { x with status := TStatus.champion })
        hchamp_pres s3 x hx
      refine ⟨{ x with status := TStatus.champion }, ?_, rfl, ?_⟩
      · unfold getActiveTeams
        exact hx'
      · have hmem : ({ x with status := TStatus.champion } : TLTeam) ∈
            (updateFirst
              (fun t => t.status != TStatus.eliminated && decide (t.losses < 2))
              (fun x : TLTeam => { x with status := TStatus.champion }) s3).filter
              (fun t => t.status != TStatus.eliminated && decide (t.losses < 2)) := by
          rw [hx']
          exact List.mem_singleton_self _
        exact (List.mem_filter.mp hmem).1
    · intro h1
      exfalso
      apply h1
      unfold getActiveTeams
      rw [length_filter_updateFirst_self hchamp_pres s3]
      exact hcnt3
  · rw [if_neg hcond]
    have hcnt3 : (getActiveTeams s3).length ≠ 1 := by simpa using hcond
    refine ⟨?_, ?_, ?_, ?_⟩
    · exact ⟨_, hf3, hstatus_iff _ (Or.inl rfl)⟩
    · exact ⟨_, hg3, rfl⟩
    · intro h1
      exact absurd h1 hcnt3
    · intro _ hnoch t ht
      rcases mem_s3 t ht with ⟨t0, ht0, hc | hc⟩
      · rw [hc]
        exact hnoch t0 ht0
      · rw [hc]
        simp

/-- Facade team A: no losses yet. -/
def tlA : TLTeam :=
  { teamId := "A", teamName := "A1 & A2", players := ("A1", "A2"), losses := 0,
    isChampion := false, hadBye := false, matchHistory := [], status := TStatus.active }

/-- Facade team B: one loss. -/
def tlB : TLTeam :=
  { teamId := "B", teamName := "B1 & B2", players := ("B1", "B2"), losses := 1,
    isChampion := false, hadBye := false, matchHistory := [], status := TStatus.active }

/-- The state after A beats B in match `m1`. -/
def tlAfter : List TLTeam :=
  [{ teamId := "A", teamName := "A1 & A2", players := ("A1", "A2"), losses := 0,
     isChampion := false, hadBye := false,
     matchHistory := [{ matchId := "m1", result := "W", opponent := "B1 & B2" }],
     status := TStatus.champion },
   { teamId := "B", teamName := "B1 & B2", players := ("B1", "B2"), losses := 2,
     isChampion := false, hadBye := false,
     matchHistory := [{ matchId := "m1", result := "L", opponent := "A1 & A2" }],
     status := TStatus.eliminated }]

/-- Witness for C9: A beats B, B reaches 2 losses and is eliminated, A is the
sole active team and becomes champion. -/
theorem recordMatchResult_spec_witness :
    ("A" ≠ "B" ∧
      [tlA, tlB].find? (fun t => t.teamId == "A") = some tlA ∧
      [tlA, tlB].find? (fun t => t.teamId == "B") = some tlB ∧
      tlB.status = TStatus.active ∧
      recordMatchResult [tlA, tlB] "m1" "A" "B" = some tlAfter) ∧
    ((∃ tl', tlAfter.find? (fun t => t.teamId == "B") = some tl' ∧
        tl'.losses = tlB.losses + 1 ∧
        (tl'.status = TStatus.eliminated ↔ tlB.losses + 1 = 2)) ∧
      (∃ tw', tlAfter.find? (fun t => t.teamId == "A") = some tw' ∧
        tw'.losses = tlA.losses) ∧
      ((getActiveTeams tlAfter).length = 1 →
        ∃ t, getActiveTeams tlAfter = [t] ∧ t.status = TStatus.champion ∧ t ∈ tlAfter) ∧
      ((getActiveTeams tlAfter).length ≠ 1 →
        (∀ t ∈ [tlA, tlB], t.status ≠ TStatus.champion) →
        ∀ t ∈ tlAfter, t.status ≠ TStatus.champion)) :=
  ⟨⟨by decide, by decide, by decide, by decide, by decide⟩,
    recordMatchResult_spec [tlA, tlB] tlAfter "m1" "A" "B" tlA tlB
      (by decide) (by decide) (by decide) (by decide) (by decide)⟩

/-! ## C10 — odd player counts in `initializeTournament` -/

/-- The pairing loop makes one team per two players, dropping a trailing
unpaired player. -/
theorem mkTeamsFromPairs_length :
    ∀ (l : List String) (k : Nat), (mkTeamsFromPairs l k).length = l.length / 2
  | [], _ => by simp [mkTeamsFromPairs]
  | [_], _ => by simp [mkTeamsFromPairs]
  | p1 :: p2 :: rest, k => by
    have ih := mkTeamsFromPairs_length rest (k + 1)
    simp only [mkTeamsFromPairs, List.length_cons, ih]
    omega

/-- For an odd-length list, every player placed in a team comes from the list
without its last element. -/
theorem mkTeamsFromPairs_players_odd :
    ∀ (l : List String) (k : Nat), l.length % 2 = 1 →
      ∀ t ∈ mkTeamsFromPairs l k, t.players.1 ∈ l.dropLast ∧ t.players.2 ∈ l.dropLast
  | [], _ => by simp
  | [_], _ => by simp [mkTeamsFromPairs]
  | p1 :: p2 :: rest, k => by
    intro hodd t ht
    have hrestodd : rest.length % 2 = 1 := by
      simp only [List.length_cons] at hodd
      omega
    have hrestne : rest ≠ [] := by
      intro h
      rw [h] at hrestodd
      simp at hrestodd
    have hdl : (p1 :: p2 :: rest).dropLast = p1 :: p2 :: rest.dropLast := by
      rcases rest with _ | ⟨r, rs⟩
      · exact absurd rfl hrestne
      · rw [List.dropLast_cons₂, List.dropLast_cons₂]
    rcases List.mem_cons.mp ht with rfl | ht
    · rw [hdl]
      constructor
      · exact List.mem_cons_self _ _
      · exact List.mem_cons_of_mem _ (List.mem_cons_self _ _)
    · have := mkTeamsFromPairs_players_odd rest (k + 1) hrestodd t ht
      rw [hdl]
      exact ⟨List.mem_cons_of_mem _ (List.mem_cons_of_mem _ this.1),
        List.mem_cons_of_mem _ (List.mem_cons_of_mem _ this.2)⟩

/-- C10: with no champion team and an odd number of (distinct) enrolled
players, `initializeTournament` builds `⌊n/2⌋` teams and silently strands one
enrolled player: some player belongs to no team's pair. The shuffle is an
arbitrary permutation of the enrolled players. -/
theorem initializeTournament_odd_strands_player
    (enrolledPlayers : List String) (shuffle : List String → List String)
    (hperm : List.Perm (shuffle enrolledPlayers) enrolledPlayers)
    (hodd : enrolledPlayers.length % 2 = 1)
    (hnd : enrolledPlayers.Nodup) :
    (initializeTournament enrolledPlayers none false shuffle).length
        = enrolledPlayers.length / 2 ∧
    ∃ p ∈ enrolledPlayers,
      ∀ t ∈ initializeTournament enrolledPlayers none false shuffle,
        p ≠ t.players.1 ∧ p ≠ t.players.2 := by
  have hinit : initializeTournament enrolledPlayers none false shuffle
      = mkTeamsFromPairs (shuffle enrolledPlayers) 0 := rfl
  have hlen : (shuffle enrolledPlayers).length = enrolledPlayers.length := hperm.length_eq
  have hoddS : (shuffle enrolledPlayers).length % 2 = 1 := by rw [hlen]; exact hodd
  have hndS : (shuffle enrolledPlayers).Nodup := hperm.nodup_iff.mpr hnd
  have hne : shuffle enrolledPlayers ≠ [] := by
    intro h
    rw [h] at hoddS
    simp at hoddS
  constructor
  · rw [hinit, mkTeamsFromPairs_length, hlen]
  · refine ⟨(shuffle enrolledPlayers).getLast hne, ?_, ?_⟩
    · exact hperm.mem_iff.mp (List.getLast_mem hne)
    · intro t ht
      rw [hinit] at ht
      have hplayers := mkTeamsFromPairs_players_odd (shuffle enrolledPlayers) 0 hoddS t ht
      have hsplit : (shuffle enrolledPlayers).dropLast
          ++ [(shuffle enrolledPlayers).getLast hne] = shuffle enrolledPlayers :=
        List.dropLast_append_getLast hne
      have hdisj : List.Disjoint (shuffle enrolledPlayers).dropLast
          [(shuffle enrolledPlayers).getLast hne] :=
        (List.nodup_append.mp (by rw [hsplit]; exact hndS)).2.2
      constructor
      · intro hp
        exact hdisj (hp ▸ hplayers.1) (List.mem_singleton_self _)
      · intro hp
        exact hdisj (hp ▸ hplayers.2) (List.mem_singleton_self _)

/-- Witness for C10 with three players and the identity shuffle: the built
team list has one team and one of the three players is in no team. -/
theorem initializeTournament_odd_strands_player_witness :
    (List.Perm (id ["a", "b", "c"]) ["a", "b", "c"] ∧
      (["a", "b", "c"] : List String).length % 2 = 1 ∧
      (["a", "b", "c"] : List String).Nodup) ∧
    ((initializeTournament ["a", "b", "c"] none false id).length
        = (["a", "b", "c"] : List String).length / 2 ∧
      ∃ p ∈ ["a", "b", "c"],
        ∀ t ∈ initializeTournament ["a", "b", "c"] none false id,
          p ≠ t.players.1 ∧ p ≠ t.players.2) :=
  ⟨⟨by decide, by decide, by decide⟩,
    initializeTournament_odd_strands_player ["a", "b", "c"] id
      (by decide) (by decide) (by decide)⟩
